import Mathlib

set_option maxRecDepth 16000

/-!
Verification of `storyboard_tool.js` against its specification.

The tool is a linear pipeline: compose a prompt from a master template,
call a chat-completion service, extract a ```yaml and a ```json fenced
block from the reply, parse and validate the JSON, and emit artifacts
(storyboard.yaml, storyboard.json, Video.tsx, placeholder mp3 files, an
exec-summary file) into an output directory.

The embedding below models:
  * the filesystem as a map from paths to file contents (`FS`);
  * JavaScript values as `JsValue` (numbers as exact rationals; the IEEE
    NaN value gets its own constructor since it infects comparisons);
  * thrown JS errors as `Except PipeError`;
  * the platform pieces the script uses: `JSON.parse` (a JSON parser over
    `JsValue`), `String.prototype.replace` with a string pattern
    (including `$$`/`$&`-style substitution patterns), the two fenced-block
    regexes, `String.prototype.trim`, and `path.join`;
  * the script's own functions, keeping their names: `MASTER_PROMPT`,
    `extractBlocks`, `validateStoryboard`, `writeVideoTsx`, `camelCase`,
    `createVoiceoverPlaceholders`, `callOpenAI`, and the post-response
    part of `main` as `runPipeline`.

`console.warn` calls are modelled as emitted `Warning` values; `js-yaml`
(an optional dependency loaded reflectively) is modelled as an abstract
optional loader passed as a parameter.
-/

/-! ## Filesystem model -/

/-- A filesystem: a map from absolute path to file contents. Directories are
implicit (`fs.mkdirSync` is idempotent and carries no observable content). -/
def FS : Type := String → Option String

/-- `fs.writeFileSync p c`: overwrite/create the file at `p` with contents `c`. -/
def writeF (p c : String) (fs : FS) : FS := fun q => if q = p then some c else fs q

/-- The empty filesystem. -/
def emptyFS : FS := fun _ => none

/-- Apply a list of writes in order (later writes win). -/
def applyWrites (ws : List (String × String)) (fs : FS) : FS :=
  ws.foldl (fun f pc => writeF pc.1 pc.2 f) fs

/-- Node's `path.join` restricted to the forms the script uses
(no trailing slashes, no `..` segments): concatenation with a separator. -/
def pathJoin (a b : String) : String := a ++ "/" ++ b

/-! ## JavaScript value model -/

/-- An exact rational as an unnormalized fraction (denominator positive by
construction at every use site). Kept unnormalized so that all arithmetic
is plain integer arithmetic, which the proof kernel evaluates directly. -/
structure JsNum where
  n : Int
  d : Int
deriving DecidableEq

/-- Value equality of fractions (cross multiplication). -/
def JsNum.eqb (a b : JsNum) : Bool := a.n * b.d == b.n * a.d

def JsNum.add (a b : JsNum) : JsNum := ⟨a.n * b.d + b.n * a.d, a.d * b.d⟩

def JsNum.mul (a b : JsNum) : JsNum := ⟨a.n * b.n, a.d * b.d⟩

def JsNum.ofInt (i : Int) : JsNum := ⟨i, 1⟩

instance : OfNat JsNum k where
  ofNat := JsNum.ofInt k

/-- Rendering a number the way `${n}` does. Exact for integer values (the
only numbers the verified claims exercise); a non-integral value is
rendered as `num/den`, whereas JS would use decimal notation. -/
def JsNum.toStr (a : JsNum) : String :=
  if a.n % a.d == 0 ∧ a.d != 0 then toString (a.n / a.d)
  else toString a.n ++ "/" ++ toString a.d

/-- A JavaScript value as the script manipulates them. Numbers are exact
fractions (the script only ever exercises integer-valued numbers, where
IEEE doubles are exact); `nan` models the IEEE NaN value, which is falsy
and strictly unequal to everything including itself. -/
inductive JsValue where
  | undefined
  | null
  | jbool (b : Bool)
  | num (q : JsNum)
  | nan
  | str (s : String)
  | arr (elems : List JsValue)
  | obj (fields : List (String × JsValue))

/-- Thrown errors, tagged by the spec's taxonomy (the JS source throws
plain `Error`s; the tag records the throw site). -/
inductive PipeError where
  | config (msg : String)
  | service (status : Nat) (body : String)
  | extraction (msg : String)
  | parse (msg : String)
  | typeError (msg : String)
deriving DecidableEq

/-- `console.warn` events the script can emit. -/
inductive Warning where
  | yamlParseFailed (msg : String)
  | yamlDisabled
  | yamlJsonMismatch
  | durationMismatch (declared total : JsValue)
  | noMeta

/-- JS truthiness. -/
def JsValue.truthy : JsValue → Bool
  | .undefined => false
  | .null => false
  | .jbool b => b
  | .num q => q.n != 0
  | .nan => false
  | .str s => s != ""
  | .arr _ => true
  | .obj _ => true

/-- Property access `v.k`. Throws a TypeError on `undefined`/`null`;
returns `undefined` for a missing key and for non-object receivers
(the script never reads inherited properties). -/
def JsValue.getProp : JsValue → String → Except PipeError JsValue
  | .undefined, k => .error (.typeError ("Cannot read properties of undefined (reading " ++ k ++ ")"))
  | .null, k => .error (.typeError ("Cannot read properties of null (reading " ++ k ++ ")"))
  | .obj fields, k => .ok ((fields.lookup k).getD .undefined)
  | _, _ => .ok .undefined

/-- Optional chaining `v?.k`: `undefined` when the receiver is nullish. -/
def JsValue.optProp (v : JsValue) (k : String) : Except PipeError JsValue :=
  match v with
  | .undefined => .ok .undefined
  | .null => .ok .undefined
  | v => v.getProp k

mutual

/-- JS `String(v)` / template-literal interpolation. -/
def jsToString : JsValue → String
  | .undefined => "undefined"
  | .null => "null"
  | .jbool b => if b then "true" else "false"
  | .num q => q.toStr
  | .nan => "NaN"
  | .str s => s
  | .arr l => jsToStringList l
  | .obj _ => "[object Object]"

/-- `Array.prototype.toString`: elements joined with `,`,
`null`/`undefined` elements rendered as the empty string. -/
def jsToStringList : List JsValue → String
  | [] => ""
  | [v] => jsToStringElem v
  | v :: rest => jsToStringElem v ++ "," ++ jsToStringList rest

def jsToStringElem : JsValue → String
  | .undefined => ""
  | .null => ""
  | .jbool b => if b then "true" else "false"
  | .num q => q.toStr
  | .nan => "NaN"
  | .str s => s
  | .arr l => jsToStringList l
  | .obj _ => "[object Object]"

end

mutual

/-- Structural equality of JS values, used to model comparing
`JSON.stringify` outputs of two parsed structures (stringify preserves key
order, so ordered-field comparison matches). -/
def jsEqb : JsValue → JsValue → Bool
  | .undefined, .undefined => true
  | .null, .null => true
  | .jbool a, .jbool b => a == b
  | .num a, .num b => a.eqb b
  | .nan, .nan => true
  | .str a, .str b => a == b
  | .arr a, .arr b => jsEqbList a b
  | .obj a, .obj b => jsEqbFields a b
  | _, _ => false

def jsEqbList : List JsValue → List JsValue → Bool
  | [], [] => true
  | a :: as, b :: bs => jsEqb a b && jsEqbList as bs
  | _, _ => false

def jsEqbFields : List (String × JsValue) → List (String × JsValue) → Bool
  | [], [] => true
  | (k1, v1) :: as, (k2, v2) :: bs => k1 == k2 && jsEqb v1 v2 && jsEqbFields as bs
  | _, _ => false

end

mutual

/-- The net effect of `JSON.parse(JSON.stringify(v))`: `undefined`-valued
object fields are dropped, `undefined` and NaN become `null` (NaN
stringifies to `null`). -/
def jsonRoundTrip : JsValue → JsValue
  | .undefined => .null
  | .null => .null
  | .jbool b => .jbool b
  | .num q => .num q
  | .nan => .null
  | .str s => .str s
  | .arr l => .arr (jsonRoundTripList l)
  | .obj fields => .obj (jsonRoundTripFields fields)

def jsonRoundTripList : List JsValue → List JsValue
  | [] => []
  | v :: rest => jsonRoundTrip v :: jsonRoundTripList rest

def jsonRoundTripFields : List (String × JsValue) → List (String × JsValue)
  | [] => []
  | (_, .undefined) :: rest => jsonRoundTripFields rest
  | (k, v) :: rest => (k, jsonRoundTrip v) :: jsonRoundTripFields rest

end

/-- `Number(str)` on a decimal literal: optional sign, digits with optional
fraction and exponent. Returns `none` (NaN) on anything else; hex/Infinity
forms are not modelled (unused by the script's data). -/
def jsStrToNumberCore (l : List Char) : Option JsNum :=
  let (sign, l1) := match l with
    | '-' :: t => ((-1 : Int), t)
    | '+' :: t => ((1 : Int), t)
    | t => ((1 : Int), t)
  let intPart := l1.takeWhile (fun (c : Char) => c.isDigit)
  let l2 := l1.dropWhile (fun (c : Char) => c.isDigit)
  let (fracPart, l3) := match l2 with
    | '.' :: t => (t.takeWhile (fun (c : Char) => c.isDigit), t.dropWhile (fun (c : Char) => c.isDigit))
    | t => ([], t)
  if intPart.isEmpty ∧ fracPart.isEmpty then none else
  let (expOk, expSign, expDigits, l4) : Bool × Bool × List Char × List Char := match l3 with
    | 'e' :: '-' :: t => (!(t.takeWhile (fun (c : Char) => c.isDigit)).isEmpty, true, t.takeWhile (fun (c : Char) => c.isDigit), t.dropWhile (fun (c : Char) => c.isDigit))
    | 'E' :: '-' :: t => (!(t.takeWhile (fun (c : Char) => c.isDigit)).isEmpty, true, t.takeWhile (fun (c : Char) => c.isDigit), t.dropWhile (fun (c : Char) => c.isDigit))
    | 'e' :: '+' :: t => (!(t.takeWhile (fun (c : Char) => c.isDigit)).isEmpty, false, t.takeWhile (fun (c : Char) => c.isDigit), t.dropWhile (fun (c : Char) => c.isDigit))
    | 'E' :: '+' :: t => (!(t.takeWhile (fun (c : Char) => c.isDigit)).isEmpty, false, t.takeWhile (fun (c : Char) => c.isDigit), t.dropWhile (fun (c : Char) => c.isDigit))
    | 'e' :: t => (!(t.takeWhile (fun (c : Char) => c.isDigit)).isEmpty, false, t.takeWhile (fun (c : Char) => c.isDigit), t.dropWhile (fun (c : Char) => c.isDigit))
    | 'E' :: t => (!(t.takeWhile (fun (c : Char) => c.isDigit)).isEmpty, false, t.takeWhile (fun (c : Char) => c.isDigit), t.dropWhile (fun (c : Char) => c.isDigit))
    | t => (true, false, [], t)
  if ¬ expOk ∨ ¬ l4.isEmpty then none else
  let digitsToNat : List Char → Nat := fun ds => ds.foldl (fun acc c => acc * 10 + (c.toNat - 48)) 0
  let mant : Int := sign * (digitsToNat (intPart ++ fracPart) : Int)
  let e := digitsToNat expDigits
  if expSign then some ⟨mant, ((10 ^ (fracPart.length + e) : Nat) : Int)⟩
  else some ⟨mant * ((10 ^ e : Nat) : Int), ((10 ^ fracPart.length : Nat) : Int)⟩

/-- JS whitespace as the script's data exercises it. -/
def isJsWs (c : Char) : Bool :=
  c = ' ' ∨ c = '\t' ∨ c = '\n' ∨ c = '\r' ∨ c = Char.ofNat 11 ∨ c = Char.ofNat 12

/-- `Number(str)`: trims whitespace; empty string is 0. -/
def jsStrToNumber (s : String) : Option JsNum :=
  let l := (s.data.dropWhile isJsWs).reverse.dropWhile isJsWs |>.reverse
  if l.isEmpty then some 0 else jsStrToNumberCore l

/-- `ToNumber` on a primitive (`none` = NaN). -/
def jsToNumber : JsValue → Option JsNum
  | .num q => some q
  | .nan => none
  | .null => some 0
  | .jbool b => some (if b then 1 else 0)
  | .undefined => none
  | .str s => jsStrToNumber s
  | .arr _ => none
  | .obj _ => none

/-- `ToPrimitive` (default hint): arrays and objects convert via their
`toString`. -/
def jsPrim : JsValue → JsValue
  | .arr l => .str (jsToStringList l)
  | .obj _ => .str "[object Object]"
  | v => v

/-- JS `+`: string concatenation when either primitive is a string,
numeric addition otherwise (NaN-propagating). -/
def jsAdd (a b : JsValue) : JsValue :=
  match jsPrim a, jsPrim b with
  | .str s, y => .str (s ++ jsToString y)
  | x, .str s => .str (jsToString x ++ s)
  | x, y =>
    match jsToNumber x, jsToNumber y with
    | some p, some q => .num (p.add q)
    | _, _ => .nan

/-- JS `*`: numeric multiplication (NaN-propagating). -/
def jsMul (a b : JsValue) : JsValue :=
  match jsToNumber (jsPrim a), jsToNumber (jsPrim b) with
  | some p, some q => .num (p.mul q)
  | _, _ => .nan

/-- JS strict equality `===` on the values the script compares (numbers
and other primitives; two distinct array/object references compare
unequal, and the script never compares a value with itself). -/
def jsStrictEq : JsValue → JsValue → Bool
  | .num a, .num b => a.eqb b
  | .nan, _ => false
  | _, .nan => false
  | .str a, .str b => a == b
  | .jbool a, .jbool b => a == b
  | .null, .null => true
  | .undefined, .undefined => true
  | _, _ => false

/-! ## String utilities (JS platform functions, over `List Char`) -/

/-- Boolean list equality with lazy conjunction: evaluates iteratively,
so concrete checks on long strings do not overflow the stack. -/
def listEqb : List Char → List Char → Bool
  | [], [] => true
  | a :: as, b :: bs => a == b && listEqb as bs
  | _, _ => false

/-- `containsB pat s`: does `pat` occur as a contiguous substring of `s`? -/
def containsB (pat : List Char) : List Char → Bool
  | [] => pat.isEmpty
  | c :: rest => pat.isPrefixOf (c :: rest) || containsB pat rest

/-- Number of positions of `s` at which `pat` occurs (overlapping counted). -/
def countOccsAux (pat : List Char) : List Char → Nat → Nat
  | [], acc => if pat.isEmpty then acc + 1 else acc
  | c :: rest, acc =>
    countOccsAux pat rest (if pat.isPrefixOf (c :: rest) then acc + 1 else acc)

def countOccs (pat s : List Char) : Nat := countOccsAux pat s 0

/-- Split `s` at the first occurrence of `pat`:
`some (before, after)` with `s = before ++ pat ++ after`, `before` minimal. -/
def splitAtFirstAux (pat : List Char) : List Char → List Char → Option (List Char × List Char)
  | [], acc => if pat = [] then some (acc.reverse, []) else none
  | c :: rest, acc =>
    if pat.isPrefixOf (c :: rest) then some (acc.reverse, (c :: rest).drop pat.length)
    else splitAtFirstAux pat rest (c :: acc)

def splitAtFirst (pat s : List Char) : Option (List Char × List Char) :=
  splitAtFirstAux pat s []

/-- ECMA `GetSubstitution` for a string-pattern `replace`: expands `$$`,
`$&` (the match), `` $` `` (the part before), `$'` (the part after); with a
string pattern there are no capture groups, so `$n` stays literal. -/
def getSubstitution (before matched after : List Char) : List Char → List Char
  | [] => []
  | [c] => [c]
  | c1 :: c2 :: rest =>
    if c1 = '$' then
      if c2 = '$' then '$' :: getSubstitution before matched after rest
      else if c2 = '&' then matched ++ getSubstitution before matched after rest
      else if c2 = Char.ofNat 96 then before ++ getSubstitution before matched after rest
      else if c2 = Char.ofNat 39 then after ++ getSubstitution before matched after rest
      else c1 :: getSubstitution before matched after (c2 :: rest)
    else c1 :: getSubstitution before matched after (c2 :: rest)

/-- `s.replace(pat, rep)` with a string `pat`: replace the first occurrence
only, expanding substitution patterns in `rep`. -/
def jsReplaceFirst (s pat rep : List Char) : List Char :=
  match splitAtFirst pat s with
  | none => s
  | some (before, after) => before ++ getSubstitution before pat after rep ++ after

/-- `String.prototype.trim` (over the whitespace the script's data uses). -/
def trimChars (l : List Char) : List Char :=
  ((l.dropWhile isJsWs).reverse.dropWhile isJsWs).reverse

def jsTrim (s : String) : String := ⟨trimChars s.data⟩

/-- Leftmost match of the regex `/OPN([\s\S]+?)CLS/` (`OPN`, `CLS`
literal): at each candidate start, greedily require `opn`, then at least
one character, then the earliest `cls`; on failure restart one character
later. Returns the captured group and the text after the whole match. -/
def attemptClose (cls t : List Char) : Option (List Char × List Char) :=
  match t with
  | [] => none
  | c :: rest =>
    match splitAtFirst cls rest with
    | some (b, r) => some (c :: b, r)
    | none => none

def fencedMatch (opn cls : List Char) : List Char → Option (List Char × List Char)
  | [] => none
  | c :: rest =>
    match (if opn.isPrefixOf (c :: rest) then attemptClose cls ((c :: rest).drop opn.length) else none) with
    | some r => some r
    | none => fencedMatch opn cls rest

/-! ## The master prompt and prompt composition -/

/-- `MASTER_PROMPT` from the source, verbatim (the source builds it as an
array of lines joined with a newline). -/
def MASTER_PROMPT : String := String.intercalate "\n" [
  "You are “Storyboard‑AI”, a film director who outputs YAML‑based storyboards for Remotion.",
  "Input research (verbatim, multi‑thousand words) is delimited by <<<RESEARCH>>> … <<<END>>>.",
  "Tasks:",
  "",
  "1. **Narrative arc** – Decide Act I (hook / problem), Act II (analysis / tension), Act III (resolution / call‑to‑action).",
  "2. **Slide breakdown** – Partition the story into numbered scenes (≈15‑45 sec each).",
  "3. **For every slide**, output:",
  "   • 'id' (kebab‑case), 'title', 'durationSec'.",
  "   • 'elements[]' ordered by on‑screen appearance. Each element:",
  "     ‑ 'kind' (heading | paragraph | bulletList | image | videoClip | chart | code | shape)",
  "     ‑ 'content' or 'src'",
  "     ‑ 'animationIn' / 'animationOut' (fade, wipe‑right, scale‑up, spring‑fly‑in, etc.)",
  "     ‑ 'startSec', optional 'endSec'.",
  "   • 'narration' – conversational, 1st‑person plural, ≤ 80 words.",
  "   • 'subtitles' – identical to narration or condensed captions.",
  "   • 'audioTracks': backgroundMusic (file name or “none”); sfx[] aligned to seconds.",
  "   • 'transitionToNext' – cut | cross‑fade | push‑left | custom.",
  "   • 'directorNotes' – free‑text with: pacing hints, visual mood, colour cues, relationship to previous/next slide, which element deserves emphasis, suggested FPS if divergent from default, volume ducking hints, mention “linger” or “skip quickly” as needed.",
  "",
  "4. Emit two artifacts with *identical* data:",
  "   a) 'storyboard.yaml' – easy for humans; b) 'storyboard.json' – camelCase keys for machines.",
  "",
  "5. After the YAML & JSON blocks, output an **exec summary table** listing slide id, title and durationSec to help editors spot timing at a glance.",
  "",
  "Remember: No Remotion code – just the data.",
  "",
  "<<<RESEARCH>>>",
  "<<PASTE FULL RESEARCH TEXT HERE>>",
  "<<<END>>>"
]

/-- The placeholder token replaced by the research text. -/
def PLACEHOLDER : String := "<<PASTE FULL RESEARCH TEXT HERE>>"

/-- Prompt composition from `main`:
`MASTER_PROMPT.replace('<<PASTE FULL RESEARCH TEXT HERE>>', research)`. -/
def composePrompt (research : String) : String :=
  ⟨jsReplaceFirst MASTER_PROMPT.data PLACEHOLDER.data research.data⟩

/-! ## extractBlocks -/

/-- `extractBlocks` from the source: first ```yaml and ```json fenced
blocks (non-greedy), trimmed; the summary is everything after the json
match, trimmed. Throws when a block is missing. -/
def extractBlocks (response : String) : Except PipeError (String × String × String) :=
  let yamlMatch := fencedMatch "```yaml\n".data "```".data response.data
  let jsonMatch := fencedMatch "```json\n".data "```".data response.data
  match yamlMatch with
  | none => .error (.extraction "Unable to find YAML block in response")
  | some (yGrp, _) =>
    match jsonMatch with
    | none => .error (.extraction "Unable to find JSON block in response")
    | some (jGrp, post) =>
      .ok (⟨trimChars yGrp⟩, ⟨trimChars jGrp⟩, ⟨trimChars post⟩)

/-! ## camelCase -/

def isAlnumAscii (c : Char) : Bool :=
  ('a' ≤ c ∧ c ≤ 'z') ∨ ('A' ≤ c ∧ c ≤ 'Z') ∨ ('0' ≤ c ∧ c ≤ '9')

def isAsciiLetter (c : Char) : Bool := ('a' ≤ c ∧ c ≤ 'z') ∨ ('A' ≤ c ∧ c ≤ 'Z')

/-- Index of the last element of `l` that is not a newline (`.` in a JS
regex does not match `\n`). -/
def lastNonNlIdx (l : List Char) : Option Nat :=
  match l.reverse.findIdx? (fun c => c ≠ '\n') with
  | some j => some (l.length - 1 - j)
  | none => none

/-- `/[^a-zA-Z0-9]+(.)/g` applied to a terminal run of non-alphanumerics:
the greedy `+` backtracks until `(.)` can match a non-newline character
(the last such character of the run, at index `i+1` of the run); failing
that the engine restarts one character later. Fuel-indexed so that the
definition reduces in the kernel; the fuel (always at least the list
length at every call site) never runs out. -/
def camel1EndF : Nat → List Char → List Char
  | 0, _ => []
  | _, [] => []
  | fuel + 1, c :: rest =>
    match lastNonNlIdx rest with
    | some i => ((rest.drop i).headD c).toUpper :: camel1EndF fuel (rest.drop (i + 1))
    | none => c :: camel1EndF fuel rest

/-- First pass of `camelCase`: `/[^a-zA-Z0-9]+(.)/g` — each run of
non-alphanumerics followed by a character is replaced by that character
uppercased. A non-match position is copied; at a match the greedy run is
the maximal run of non-alphanumerics starting at the current (non-alnum)
character, i.e. the character itself followed by `takeWhile` of the rest.
Fuel-indexed as above (each step consumes at least one character). -/
def camel1F : Nat → List Char → List Char
  | 0, _ => []
  | _, [] => []
  | fuel + 1, c :: rest =>
    if isAlnumAscii c then c :: camel1F fuel rest
    else
      match rest.dropWhile (fun x => ¬ isAlnumAscii x) with
      | a :: rest2 => a.toUpper :: camel1F fuel rest2
      | [] => camel1EndF fuel (c :: rest.takeWhile (fun x => ¬ isAlnumAscii x))

def camel1 (l : List Char) : List Char := camel1F (l.length + 1) l

/-- Second pass: `/^[^a-zA-Z]*/` — strip the leading run of non-letters
(this includes digits). -/
def camel2 (l : List Char) : List Char := l.dropWhile (fun c => ¬ isAsciiLetter c)

/-- Third pass: `/^(.)/` — uppercase the first character (`.` does not
match a newline). -/
def camel3 : List Char → List Char
  | [] => []
  | c :: rest => if c = '\n' then c :: rest else c.toUpper :: rest

/-- `camelCase` from the source: three chained `replace` calls. -/
def camelCase (s : String) : String := ⟨camel3 (camel2 (camel1 s.data))⟩

/-! ## JSON parser (model of `JSON.parse`) -/

def hexVal (c : Char) : Option Nat :=
  if '0' ≤ c ∧ c ≤ '9' then some (c.toNat - 48)
  else if 'a' ≤ c ∧ c ≤ 'f' then some (c.toNat - 87)
  else if 'A' ≤ c ∧ c ≤ 'F' then some (c.toNat - 55)
  else none

/-- Parse the body of a JSON string literal (after the opening quote). -/
def parseStringBody : List Char → List Char → Except String (String × List Char)
  | [], _ => .error "Unterminated string in JSON"
  | c :: rest, acc =>
    if c = '"' then .ok (⟨acc.reverse⟩, rest)
    else if c = '\\' then
      match rest with
      | [] => .error "Unterminated string in JSON"
      | e :: rest2 =>
        if e = '"' then parseStringBody rest2 ('"' :: acc)
        else if e = '\\' then parseStringBody rest2 ('\\' :: acc)
        else if e = '/' then parseStringBody rest2 ('/' :: acc)
        else if e = 'b' then parseStringBody rest2 (Char.ofNat 8 :: acc)
        else if e = 'f' then parseStringBody rest2 (Char.ofNat 12 :: acc)
        else if e = 'n' then parseStringBody rest2 ('\n' :: acc)
        else if e = 'r' then parseStringBody rest2 ('\r' :: acc)
        else if e = 't' then parseStringBody rest2 ('\t' :: acc)
        else if e = 'u' then
          match rest2 with
          | h1 :: h2 :: h3 :: h4 :: rest3 =>
            match hexVal h1, hexVal h2, hexVal h3, hexVal h4 with
            | some a, some b, some c2, some d =>
              parseStringBody rest3 (Char.ofNat (a * 4096 + b * 256 + c2 * 16 + d) :: acc)
            | _, _, _, _ => .error "Bad Unicode escape in JSON"
          | _ => .error "Bad Unicode escape in JSON"
        else .error "Bad escaped character in JSON"
    else if c.toNat < 32 then .error "Bad control character in JSON string literal"
    else parseStringBody rest (c :: acc)

/-- Parse a JSON number (strict grammar: no leading zeros, no leading
`+`, no bare `.`), returning its exact rational value. -/
def parseJsonNumber (l : List Char) : Except String (JsNum × List Char) :=
  let (sign, l1) : Int × List Char := match l with
    | '-' :: t => (-1, t)
    | t => (1, t)
  let intDigits := l1.takeWhile (fun (c : Char) => c.isDigit)
  let l2 := l1.dropWhile (fun (c : Char) => c.isDigit)
  if intDigits.isEmpty then .error "Unexpected token in JSON" else
  if intDigits.length > 1 ∧ intDigits.headD '0' = '0' then .error "Unexpected number in JSON" else
  let (fracOk, fracDigits, l3) : Bool × List Char × List Char := match l2 with
    | '.' :: t => (!(t.takeWhile (fun (c : Char) => c.isDigit)).isEmpty,
        t.takeWhile (fun (c : Char) => c.isDigit), t.dropWhile (fun (c : Char) => c.isDigit))
    | t => (true, [], t)
  if ¬ fracOk then .error "Unterminated fractional number in JSON" else
  let (expOk, expSign, expDigits, l4) : Bool × Bool × List Char × List Char := match l3 with
    | 'e' :: '-' :: t => (!(t.takeWhile (fun (c : Char) => c.isDigit)).isEmpty, true,
        t.takeWhile (fun (c : Char) => c.isDigit), t.dropWhile (fun (c : Char) => c.isDigit))
    | 'E' :: '-' :: t => (!(t.takeWhile (fun (c : Char) => c.isDigit)).isEmpty, true,
        t.takeWhile (fun (c : Char) => c.isDigit), t.dropWhile (fun (c : Char) => c.isDigit))
    | 'e' :: '+' :: t => (!(t.takeWhile (fun (c : Char) => c.isDigit)).isEmpty, false,
        t.takeWhile (fun (c : Char) => c.isDigit), t.dropWhile (fun (c : Char) => c.isDigit))
    | 'E' :: '+' :: t => (!(t.takeWhile (fun (c : Char) => c.isDigit)).isEmpty, false,
        t.takeWhile (fun (c : Char) => c.isDigit), t.dropWhile (fun (c : Char) => c.isDigit))
    | 'e' :: t => (!(t.takeWhile (fun (c : Char) => c.isDigit)).isEmpty, false,
        t.takeWhile (fun (c : Char) => c.isDigit), t.dropWhile (fun (c : Char) => c.isDigit))
    | 'E' :: t => (!(t.takeWhile (fun (c : Char) => c.isDigit)).isEmpty, false,
        t.takeWhile (fun (c : Char) => c.isDigit), t.dropWhile (fun (c : Char) => c.isDigit))
    | t => (true, false, [], t)
  if ¬ expOk then .error "Exponent part is missing a number in JSON" else
  let digitsToNat : List Char → Nat := fun ds => ds.foldl (fun acc c => acc * 10 + (c.toNat - 48)) 0
  let mant : Int := sign * (digitsToNat (intDigits ++ fracDigits) : Int)
  let e := digitsToNat expDigits
  .ok (if expSign then ⟨mant, ((10 ^ (fracDigits.length + e) : Nat) : Int)⟩
    else (⟨mant * ((10 ^ e : Nat) : Int), ((10 ^ fracDigits.length : Nat) : Int)⟩ : JsNum), l4)

/-- JSON insignificant whitespace. -/
def isJsonWs (c : Char) : Bool := c = ' ' ∨ c = '\t' ∨ c = '\n' ∨ c = '\r'

/-- Object field insertion: a duplicated key keeps its first position but
takes the last value, as `JSON.parse` does. -/
def insertField (k : String) (v : JsValue) (fields : List (String × JsValue)) :
    List (String × JsValue) :=
  if fields.any (fun kv => kv.1 == k) then
    fields.map (fun kv => if kv.1 == k then (k, v) else kv)
  else fields ++ [(k, v)]

mutual

def parseValue : Nat → List Char → Except String (JsValue × List Char)
  | 0, _ => .error "JSON nesting too deep"
  | fuel + 1, s =>
    match s.dropWhile isJsonWs with
    | [] => .error "Unexpected end of JSON input"
    | c :: rest =>
      if c = 'n' then
        match rest with
        | 'u' :: 'l' :: 'l' :: r => .ok (.null, r)
        | _ => .error "Unexpected token in JSON"
      else if c = 't' then
        match rest with
        | 'r' :: 'u' :: 'e' :: r => .ok (.jbool true, r)
        | _ => .error "Unexpected token in JSON"
      else if c = 'f' then
        match rest with
        | 'a' :: 'l' :: 's' :: 'e' :: r => .ok (.jbool false, r)
        | _ => .error "Unexpected token in JSON"
      else if c = '"' then
        match parseStringBody rest [] with
        | .ok (s, r) => .ok (.str s, r)
        | .error e => .error e
      else if c = '[' then parseArrayItems fuel rest [] true
      else if c = Char.ofNat 123 then parseObjectItems fuel rest [] true
      else
        match parseJsonNumber (c :: rest) with
        | .ok (q, r) => .ok (.num q, r)
        | .error e => .error e

def parseArrayItems : Nat → List Char → List JsValue → Bool → Except String (JsValue × List Char)
  | 0, _, _, _ => .error "JSON nesting too deep"
  | fuel + 1, s, acc, isFirst =>
    match s.dropWhile isJsonWs with
    | ']' :: r => if isFirst then .ok (.arr [], r) else .error "Unexpected token in JSON"
    | s1 =>
      match parseValue fuel s1 with
      | .error e => .error e
      | .ok (v, r) =>
        match r.dropWhile isJsonWs with
        | ',' :: r2 => parseArrayItems fuel r2 (v :: acc) false
        | ']' :: r2 => .ok (.arr (v :: acc).reverse, r2)
        | _ => .error "Expected comma or bracket after array element in JSON"

def parseObjectItems : Nat → List Char → List (String × JsValue) → Bool →
    Except String (JsValue × List Char)
  | 0, _, _, _ => .error "JSON nesting too deep"
  | fuel + 1, s, acc, isFirst =>
    match s.dropWhile isJsonWs with
    | c :: r =>
      if c = Char.ofNat 125 then
        if isFirst then .ok (.obj acc, r) else .error "Unexpected token in JSON"
      else if c = '"' then
        match parseStringBody r [] with
        | .error e => .error e
        | .ok (k, r1) =>
          match r1.dropWhile isJsonWs with
          | ':' :: r2 =>
            match parseValue fuel r2 with
            | .error e => .error e
            | .ok (v, r3) =>
              match r3.dropWhile isJsonWs with
              | ',' :: r4 => parseObjectItems fuel r4 (insertField k v acc) false
              | c2 :: r4 =>
                if c2 = Char.ofNat 125 then .ok (.obj (insertField k v acc), r4)
                else .error "Expected comma or brace after object member in JSON"
              | [] => .error "Unexpected end of JSON input"
          | _ => .error "Expected colon after key in JSON"
      else .error "Expected string key in JSON"
    | [] => .error "Unexpected end of JSON input"

end

/-- `JSON.parse`: a value followed only by whitespace. -/
def parseJson (s : String) : Except String JsValue :=
  match parseValue (s.length + 1) s.data with
  | .error e => .error e
  | .ok (v, rest) =>
    match rest.dropWhile isJsonWs with
    | [] => .ok v
    | _ => .error "Unexpected non-whitespace character after JSON data"

/-! ## validateStoryboard -/

/-- The duration check from `validateStoryboard` (source lines 223-229):
`if (jsonObj.meta && Array.isArray(jsonObj.slides))`, sum
`s.durationSec || 0` with `reduce`, warn when
`jsonObj.meta.totalDurationSec` is truthy and differs (`!==`) from the
sum. Property access on a nullish slide element throws. -/
def sumDurations : List JsValue → JsValue → Except PipeError JsValue
  | [], acc => .ok acc
  | s :: rest, acc =>
    match s.getProp "durationSec" with
    | .error e => .error e
    | .ok d => sumDurations rest (jsAdd acc (if d.truthy then d else .num 0))

def durationCheck (jsonObj : JsValue) : Except PipeError (List Warning) :=
  match jsonObj.getProp "meta" with
  | .error e => .error e
  | .ok meta =>
    if meta.truthy then
      match jsonObj.getProp "slides" with
      | .error e => .error e
      | .ok (.arr l) =>
        match sumDurations l (.num 0) with
        | .error e => .error e
        | .ok total =>
          match meta.getProp "totalDurationSec" with
          | .error e => .error e
          | .ok tds =>
            if tds.truthy ∧ ¬ jsStrictEq total tds then
              .ok [.durationMismatch tds total]
            else .ok []
      | .ok _ => .ok []
    else .ok []

/-- `validateStoryboard` from the source. `yamlLoad` models the optional
`js-yaml` module (`none` = not installed); its result is only used for the
best-effort structural comparison. Returns the warnings emitted and
either the thrown error or `(yamlObj, jsonObj)`. -/
def validateStoryboard (yamlLoad : Option (String → Except String JsValue))
    (yamlStr jsonStr : String) :
    List Warning × Except PipeError (Option JsValue × JsValue) :=
  let (yamlObj, w1) : Option JsValue × List Warning :=
    match yamlLoad with
    | none => (none, [.yamlDisabled])
    | some load =>
      match load yamlStr with
      | .error m => (none, [.yamlParseFailed m])
      | .ok v => (some v, [])
  match parseJson jsonStr with
  | .error m => (w1, .error (.parse ("Invalid JSON returned by OpenAI: " ++ m)))
  | .ok jsonObj =>
    let w2 : List Warning :=
      match yamlObj with
      | some y =>
        if y.truthy then
          if jsEqb (jsonRoundTrip y) (jsonRoundTrip jsonObj) then [] else [.yamlJsonMismatch]
        else []
      | none => []
    match durationCheck jsonObj with
    | .error e => (w1 ++ w2, .error e)
    | .ok w3 => (w1 ++ w2 ++ w3, .ok (yamlObj, jsonObj))

/-! ## writeVideoTsx -/

/-- The generated `Video.tsx` text, verbatim from the source's template
with its five interpolation points. -/
def tsxContent (ident framesStr fpsStr widthStr heightStr : String) : String := String.join [
  "import React from 'react';\nimport \x7b Composition, Sequence, Audio, AbsoluteFill \x7d from 'remotion';\nimport storyboard from './storyboard.json';\n\n// This file was auto‑generated by storyboard_tool.js.\n// It defines a Remotion Composition whose id is based on storyboard.meta.videoId.\n// Each slide becomes a Sequence; rendering of individual elements is left as TODOs.\n\nconst Slide: React.FC<\x7b slide: any \x7d> = (\x7b slide \x7d) => \x7b\n  // TODO: Render slide elements here. You can map slide.elements to your own\n  // custom components, apply animations based on startSec/endSec, and insert\n  // Audio components for narration, backgroundMusic and sfx.\n  return (\n    <AbsoluteFill style=\x7b\x7b backgroundColor: 'white', color: 'black', justifyContent: 'center', alignItems: 'center' \x7d\x7d>\n      \x7b/* Example placeholder: show slide title centered on screen */\x7d\n      <h1>\x7bslide.title\x7d</h1>\n    </AbsoluteFill>\n  );\n\x7d;\n\nconst MainVideo: React.FC = () => \x7b\n  let currentFrame = 0;\n  const sequences = storyboard.slides.map((slide: any, index: number) => \x7b\n    const durationFrames = Math.round(slide.durationSec * storyboard.meta.defaultFps);\n    const from = currentFrame;\n    currentFrame += durationFrames;\n    return (\n      <Sequence key=\x7bslide.id\x7d from=\x7bfrom\x7d durationInFrames=\x7bdurationFrames\x7d>\n        <Slide slide=\x7bslide\x7d />\n      </Sequence>\n    );\n  \x7d);\n  return (\n    <>\n      \x7bsequences\x7d\n    </>\n  );\n\x7d;\n\nexport const ",
  ident,
  ": React.FC = () => \x7b\n  return (\n    <Composition\n      id=\x7bstoryboard.meta.videoId\x7d\n      component=\x7bMainVideo\x7d\n      durationInFrames=\x7b",
  framesStr,
  "\x7d\n      fps=\x7b",
  fpsStr,
  "\x7d\n      width=\x7b",
  widthStr,
  "\x7d\n      height=\x7b",
  heightStr,
  "\x7d\n    />\n  );\n\x7d;\n\nexport default ",
  ident,
  ";\n"
]

/-- `camelCase(videoId)`: the JS call throws a TypeError unless the value
is a string (`.replace` is only a string method). -/
def camelCaseJs (v : JsValue) : Except PipeError String :=
  match v with
  | .str s => .ok (camelCase s)
  | _ => .error (.typeError "videoId.replace is not a function")

/-- The pure part of `writeVideoTsx`: either the skip-with-warning, a
thrown error, or the rendered `Video.tsx` text. Defaults are `fps = 30`,
`videoId = 'generated-video'`, `1920x1080`, and
`totalFrames = (meta.totalDurationSec || 0) * fps`. -/
def tsxRender (storyboard : JsValue) : Except PipeError (Option String × List Warning) :=
  match storyboard.getProp "meta" with
  | .error e => .error e
  | .ok meta =>
    if ¬ meta.truthy then
      .ok (none, [.noMeta])
    else
      match meta.getProp "defaultFps" with
      | .error e => .error e
      | .ok dfps =>
        let fps := if dfps.truthy then dfps else .num 30
        match meta.getProp "videoId" with
        | .error e => .error e
        | .ok vid =>
          let videoId := if vid.truthy then vid else .str "generated-video"
          match meta.getProp "defaultResolution" with
          | .error e => .error e
          | .ok dres =>
            match dres.optProp "width", dres.optProp "height" with
            | .error e, _ => .error e
            | .ok _, .error e => .error e
            | .ok w, .ok h =>
              let width := if w.truthy then w else .num 1920
              let height := if h.truthy then h else .num 1080
              match meta.getProp "totalDurationSec" with
              | .error e => .error e
              | .ok tds =>
                let totalFrames := jsMul (if tds.truthy then tds else .num 0) fps
                match camelCaseJs videoId with
                | .error e => .error e
                | .ok ident =>
                  .ok (some (tsxContent ident (jsToString totalFrames) (jsToString fps)
                    (jsToString width) (jsToString height)), [])

/-- `writeVideoTsx` from the source: skipped with a warning when
`storyboard.meta` is falsy; otherwise writes the rendered template to
`<outDir>/Video.tsx`. -/
def writeVideoTsx (storyboard : JsValue) (outDir : String) (fs : FS) :
    Except PipeError (FS × List Warning) :=
  match tsxRender storyboard with
  | .error e => .error e
  | .ok (none, w) => .ok (fs, w)
  | .ok (some tsx, w) => .ok (writeF (pathJoin outDir "Video.tsx") tsx fs, w)

/-! ## createVoiceoverPlaceholders and the summary write -/

/-- The voiceover directory `path.join(outDir, 'public', 'voiceovers')`. -/
def voiceDir (outDir : String) : String := pathJoin (pathJoin outDir "public") "voiceovers"

/-- The placeholder path for one slide value: `` `${slide.id}.mp3` `` under
the voiceover directory (`slide.id` is interpolated with JS `String`). -/
def voPathOf (outDir : String) (idv : JsValue) : String :=
  pathJoin (voiceDir outDir) (jsToString idv ++ ".mp3")

/-- The `forEach` body: one empty write per slide; accessing `slide.id` on
a nullish element throws. -/
def voiceFold (outDir : String) : List JsValue → FS → Except PipeError FS
  | [], fs => .ok fs
  | s :: rest, fs => do
    let idv ← s.getProp "id"
    voiceFold outDir rest (writeF (voPathOf outDir idv) "" fs)

/-- `createVoiceoverPlaceholders` from the source: `mkdirSync` (no
observable file effect), then `storyboard.slides.forEach(...)` — which
throws a TypeError when `slides` is not an array. -/
def createVoiceoverPlaceholders (storyboard : JsValue) (outDir : String) (fs : FS) :
    Except PipeError FS := do
  let slides ← storyboard.getProp "slides"
  match slides with
  | .arr l => voiceFold outDir l fs
  | .undefined => .error (.typeError "Cannot read properties of undefined (reading forEach)")
  | .null => .error (.typeError "Cannot read properties of null (reading forEach)")
  | _ => .error (.typeError "storyboard.slides.forEach is not a function")

/-- `main`'s summary write: `if (summary)` then write `summary.trim()` to
`EXEC_SUMMARY.txt`. -/
def writeSummary (summary outDir : String) (fs : FS) : FS :=
  if summary != "" then writeF (pathJoin outDir "EXEC_SUMMARY.txt") (jsTrim summary) fs else fs

/-! ## The emitter and the pipeline -/

def yamlPath (outDir : String) : String := pathJoin outDir "storyboard.yaml"

def jsonPath (outDir : String) : String := pathJoin outDir "storyboard.json"

def tsxPath (outDir : String) : String := pathJoin outDir "Video.tsx"

def summaryPath (outDir : String) : String := pathJoin outDir "EXEC_SUMMARY.txt"

/-- The Artifact Emitter: the file-producing steps of `main` run with an
already-validated structure — write the two block texts, generate
`Video.tsx`, write the placeholder audio files, write the summary. -/
def emitAll (yamlStr jsonStr : String) (jsonObj : JsValue) (summary outDir : String) (fs : FS) :
    Except PipeError (FS × List Warning) :=
  match writeVideoTsx jsonObj outDir
    (writeF (jsonPath outDir) jsonStr (writeF (yamlPath outDir) yamlStr fs)) with
  | .error e => .error e
  | .ok (fs3, wt) =>
    match createVoiceoverPlaceholders jsonObj outDir fs3 with
    | .error e => .error e
    | .ok fs4 => .ok (writeSummary summary outDir fs4, wt)

/-- The post-response part of `main` (source lines 360-379): extract the
blocks, write the two raw block texts, validate (parsing the JSON),
generate `Video.tsx`, write the placeholders, write the summary. Returns
the filesystem at exit, the warnings emitted, and the error that aborted
the run (if any). -/
def runPipeline (yamlLoad : Option (String → Except String JsValue))
    (responseText outDir : String) (fs : FS) : FS × List Warning × Option PipeError :=
  match extractBlocks responseText with
  | .error e => (fs, [], some e)
  | .ok (yamlStr, jsonStr, summary) =>
    let fs2 := writeF (jsonPath outDir) jsonStr (writeF (yamlPath outDir) yamlStr fs)
    let wv := (validateStoryboard yamlLoad yamlStr jsonStr).1
    match (validateStoryboard yamlLoad yamlStr jsonStr).2 with
    | .error e => (fs2, wv, some e)
    | .ok (_, jsonObj) =>
      match writeVideoTsx jsonObj outDir fs2 with
      | .error e => (fs2, wv, some e)
      | .ok (fs3, wt) =>
        match createVoiceoverPlaceholders jsonObj outDir fs3 with
        | .error e => (fs3, wv ++ wt, some e)
        | .ok fs4 => (writeSummary summary outDir fs4, wv ++ wt, none)

/-! ## callOpenAI -/

/-- The completion service's observable behaviour for one request:
HTTP status and the two body readings the script may perform. -/
structure FetchResponse where
  ok : Bool
  status : Nat
  bodyText : String
  bodyJson : Except String JsValue

/-- `callOpenAI` from the source, with the process environment and the
network modelled as parameters. Returns the result together with the
number of network calls performed. The guard `if (!apiKey)` fires on an
absent or empty credential, before any network call. -/
def callOpenAI (env : String → Option String) (fetchRes : FetchResponse) :
    Except PipeError JsValue × Nat :=
  let apiKey := env "OPENAI_API_KEY"
  match apiKey with
  | none => (.error (.config "OPENAI_API_KEY environment variable is not set"), 0)
  | some k =>
    if k = "" then (.error (.config "OPENAI_API_KEY environment variable is not set"), 0)
    else
      let result : Except PipeError JsValue := do
        if ¬ fetchRes.ok then
          .error (.service fetchRes.status ("OpenAI API error: " ++ toString fetchRes.status ++ " – " ++ fetchRes.bodyText))
        else do
          match fetchRes.bodyJson with
          | .error m => .error (.parse m)
          | .ok json => do
            let choices ← json.getProp "choices"
            let first := match choices with
              | .arr (c :: _) => Except.ok c
              | .arr [] => Except.ok JsValue.undefined
              | .undefined => Except.error (PipeError.typeError "Cannot read properties of undefined (reading 0)")
              | .null => Except.error (PipeError.typeError "Cannot read properties of null (reading 0)")
              | _ => Except.ok JsValue.undefined
            let c0 ← first
            let message ← c0.getProp "message"
            message.getProp "content"
      (result, 1)

/-! ## Helper lemmas: filesystem and paths -/

theorem writeF_self (p c : String) (fs : FS) : writeF p c fs p = some c := by
  simp [writeF]

theorem writeF_ne (p c q : String) (fs : FS) (h : q ≠ p) : writeF p c fs q = fs q := by
  simp [writeF, h]

theorem strApp_cancel {s a b : String} (h : s ++ a = s ++ b) : a = b := by
  apply String.ext
  have hd : s.data ++ a.data = s.data ++ b.data := congrArg String.data h
  exact List.append_cancel_left hd

theorem str_ne_of_app (s : String) {a b : String} (h : a ≠ b) : s ++ a ≠ s ++ b :=
  fun he => h (strApp_cancel he)

theorem str_ne_of_head {a b : String} {c1 c2 : Char}
    (h1 : a.data.head? = some c1) (h2 : b.data.head? = some c2) (h : c1 ≠ c2) : a ≠ b := by
  intro he
  rw [he, h2] at h1
  injection h1 with hv
  exact h hv.symm

theorem strAssoc (a b c : String) : (a ++ b) ++ c = a ++ (b ++ c) := by
  apply String.ext
  show (a.data ++ b.data) ++ c.data = a.data ++ (b.data ++ c.data)
  exact List.append_assoc _ _ _

theorem voPathOf_shape (d : String) (idv : JsValue) :
    voPathOf d idv = (d ++ "/") ++ ("public" ++ ("/" ++ ("voiceovers" ++ ("/" ++ (jsToString idv ++ ".mp3"))))) := by
  show ((((((d ++ "/") ++ "public") ++ "/") ++ "voiceovers") ++ "/") ++ (jsToString idv ++ ".mp3")) = _
  rw [strAssoc (d ++ "/") "public", strAssoc (d ++ "/"), strAssoc (d ++ "/"), strAssoc (d ++ "/")]
  rw [strAssoc "public", strAssoc "public", strAssoc "public"]
  rw [strAssoc "/", strAssoc "/"]
  rw [strAssoc "voiceovers"]

theorem vo_ne_yamlPath (d : String) (idv : JsValue) : voPathOf d idv ≠ yamlPath d := by
  rw [voPathOf_shape]
  exact str_ne_of_app (d ++ "/") (str_ne_of_head rfl rfl (by decide))

theorem vo_ne_jsonPath (d : String) (idv : JsValue) : voPathOf d idv ≠ jsonPath d := by
  rw [voPathOf_shape]
  exact str_ne_of_app (d ++ "/") (str_ne_of_head rfl rfl (by decide))

theorem vo_ne_tsxPath (d : String) (idv : JsValue) : voPathOf d idv ≠ tsxPath d := by
  rw [voPathOf_shape]
  exact str_ne_of_app (d ++ "/") (str_ne_of_head rfl rfl (by decide))

theorem vo_ne_summaryPath (d : String) (idv : JsValue) : voPathOf d idv ≠ summaryPath d := by
  rw [voPathOf_shape]
  exact str_ne_of_app (d ++ "/") (str_ne_of_head rfl rfl (by decide))

theorem yamlPath_ne_jsonPath (d : String) : yamlPath d ≠ jsonPath d :=
  str_ne_of_app (d ++ "/") (by decide)

theorem summaryPath_ne_yamlPath (d : String) : summaryPath d ≠ yamlPath d :=
  str_ne_of_app (d ++ "/") (by decide)

theorem summaryPath_ne_jsonPath (d : String) : summaryPath d ≠ jsonPath d :=
  str_ne_of_app (d ++ "/") (by decide)

theorem summaryPath_ne_tsxPath (d : String) : summaryPath d ≠ tsxPath d :=
  str_ne_of_app (d ++ "/") (by decide)

theorem tsxPath_ne_yamlPath (d : String) : tsxPath d ≠ yamlPath d :=
  str_ne_of_app (d ++ "/") (by decide)

theorem tsxPath_ne_jsonPath (d : String) : tsxPath d ≠ jsonPath d :=
  str_ne_of_app (d ++ "/") (by decide)

/-! ## Helper lemmas: the emitter's filesystem effects -/

theorem writeSummary_preserves (sm d : String) (fs : FS) (q : String) (h : q ≠ summaryPath d) :
    writeSummary sm d fs q = fs q := by
  unfold writeSummary
  split
  · exact writeF_ne _ _ _ _ h
  · rfl

theorem writeSummary_self (sm d : String) (fs : FS) (h : sm ≠ "") :
    writeSummary sm d fs (summaryPath d) = some (jsTrim sm) := by
  unfold writeSummary
  rw [if_pos (by simpa using h)]
  exact writeF_self _ _ _

theorem voiceFold_preserves (d : String) (l : List JsValue) (fs fs' : FS)
    (hok : voiceFold d l fs = .ok fs') (q : String) (hq : ∀ idv, q ≠ voPathOf d idv) :
    fs' q = fs q := by
  induction l generalizing fs with
  | nil =>
    unfold voiceFold at hok
    injection hok with h
    rw [← h]
  | cons s rest ih =>
    unfold voiceFold at hok
    cases hg : s.getProp "id" with
    | error e => rw [hg] at hok; exact Except.noConfusion hok
    | ok idv =>
      rw [hg] at hok
      have := ih _ hok
      rw [this, writeF_ne _ _ _ _ (hq idv)]

theorem voiceFold_keeps_empty (d : String) (l : List JsValue) (fs fs' : FS)
    (hok : voiceFold d l fs = .ok fs') (q : String) (hq : fs q = some "") :
    fs' q = some "" := by
  induction l generalizing fs with
  | nil =>
    unfold voiceFold at hok
    injection hok with h
    rw [← h]
    exact hq
  | cons s rest ih =>
    unfold voiceFold at hok
    cases hg : s.getProp "id" with
    | error e => rw [hg] at hok; exact Except.noConfusion hok
    | ok idv =>
      rw [hg] at hok
      refine ih _ hok ?_
      unfold writeF
      split
      · rfl
      · exact hq

theorem voiceFold_writes (d : String) (l : List JsValue) (fs fs' : FS)
    (hok : voiceFold d l fs = .ok fs') (s : JsValue) (hs : s ∈ l) (sfs : List (String × JsValue))
    (hobj : s = .obj sfs) :
    fs' (voPathOf d ((sfs.lookup "id").getD .undefined)) = some "" := by
  induction l generalizing fs with
  | nil => cases hs
  | cons t rest ih =>
    unfold voiceFold at hok
    cases hg : t.getProp "id" with
    | error e => rw [hg] at hok; exact Except.noConfusion hok
    | ok idv =>
      rw [hg] at hok
      rcases List.mem_cons.mp hs with heq | hmem
      · subst heq
        rw [hobj] at hg
        simp only [JsValue.getProp] at hg
        injection hg with hg'
        refine voiceFold_keeps_empty d rest _ _ hok _ ?_
        rw [← hg']
        exact writeF_self _ _ _
      · exact ih _ hok hmem

theorem createVo_preserves (sb : JsValue) (d : String) (fs fs' : FS)
    (hok : createVoiceoverPlaceholders sb d fs = .ok fs') (q : String)
    (hq : ∀ idv, q ≠ voPathOf d idv) : fs' q = fs q := by
  unfold createVoiceoverPlaceholders at hok
  cases hg : sb.getProp "slides" with
  | error e => rw [hg] at hok; exact Except.noConfusion hok
  | ok v =>
    rw [hg] at hok
    cases v with
    | arr l => exact voiceFold_preserves d l fs fs' hok q hq
    | undefined => exact Except.noConfusion hok
    | null => exact Except.noConfusion hok
    | jbool b => exact Except.noConfusion hok
    | num q2 => exact Except.noConfusion hok
    | nan => exact Except.noConfusion hok
    | str s2 => exact Except.noConfusion hok
    | obj o => exact Except.noConfusion hok

theorem runPipeline_writes (yl : Option (String → Except String JsValue)) (resp outDir : String)
    (fs : FS) (y j sm : String) (hex : extractBlocks resp = .ok (y, j, sm)) :
    (runPipeline yl resp outDir fs).1 (yamlPath outDir) = some y ∧
    (runPipeline yl resp outDir fs).1 (jsonPath outDir) = some j := by
  have hy2 : writeF (jsonPath outDir) j (writeF (yamlPath outDir) y fs) (yamlPath outDir) = some y := by
    rw [writeF_ne _ _ _ _ (yamlPath_ne_jsonPath outDir)]
    exact writeF_self _ _ _
  have hj2 : writeF (jsonPath outDir) j (writeF (yamlPath outDir) y fs) (jsonPath outDir) = some j :=
    writeF_self _ _ _
  simp only [runPipeline, hex]
  cases hv : (validateStoryboard yl y j).2 with
  | error e => exact ⟨hy2, hj2⟩
  | ok pr =>
    obtain ⟨yo, jsonObj⟩ := pr
    simp only [writeVideoTsx]
    cases ht : tsxRender jsonObj with
    | error e => exact ⟨hy2, hj2⟩
    | ok pw =>
      obtain ⟨ow, w⟩ := pw
      have step : ∀ fs3 : FS, fs3 (yamlPath outDir) = some y → fs3 (jsonPath outDir) = some j →
          (match createVoiceoverPlaceholders jsonObj outDir fs3 with
            | .error e => (fs3, (validateStoryboard yl y j).1 ++ w, some e)
            | .ok fs4 => (writeSummary sm outDir fs4, (validateStoryboard yl y j).1 ++ w, none) : FS × List Warning × Option PipeError).1 (yamlPath outDir) = some y ∧
          (match createVoiceoverPlaceholders jsonObj outDir fs3 with
            | .error e => (fs3, (validateStoryboard yl y j).1 ++ w, some e)
            | .ok fs4 => (writeSummary sm outDir fs4, (validateStoryboard yl y j).1 ++ w, none) : FS × List Warning × Option PipeError).1 (jsonPath outDir) = some j := by
        intro fs3 h3y h3j
        cases hcv : createVoiceoverPlaceholders jsonObj outDir fs3 with
        | error e => exact ⟨h3y, h3j⟩
        | ok fs4 =>
          have h4y : fs4 (yamlPath outDir) = some y := by
            rw [createVo_preserves _ _ _ _ hcv _ (fun idv => Ne.symm (vo_ne_yamlPath outDir idv))]
            exact h3y
          have h4j : fs4 (jsonPath outDir) = some j := by
            rw [createVo_preserves _ _ _ _ hcv _ (fun idv => Ne.symm (vo_ne_jsonPath outDir idv))]
            exact h3j
          constructor
          · show writeSummary sm outDir fs4 (yamlPath outDir) = some y
            rw [writeSummary_preserves _ _ _ _ (Ne.symm (summaryPath_ne_yamlPath outDir))]
            exact h4y
          · show writeSummary sm outDir fs4 (jsonPath outDir) = some j
            rw [writeSummary_preserves _ _ _ _ (Ne.symm (summaryPath_ne_jsonPath outDir))]
            exact h4j
      cases ow with
      | none => exact step _ hy2 hj2
      | some tsx =>
        refine step _ ?_ ?_
        · exact (writeF_ne (pathJoin outDir "Video.tsx") tsx _ _
            (Ne.symm (tsxPath_ne_yamlPath outDir))).trans hy2
        · exact (writeF_ne (pathJoin outDir "Video.tsx") tsx _ _
            (Ne.symm (tsxPath_ne_jsonPath outDir))).trans hj2

theorem validate_parse_error (yl : Option (String → Except String JsValue)) (y j m : String)
    (hp : parseJson j = .error m) :
    (validateStoryboard yl y j).2 = .error (.parse ("Invalid JSON returned by OpenAI: " ++ m)) := by
  cases yl with
  | none => simp only [validateStoryboard, hp]
  | some load =>
    cases hl : load y with
    | error m2 => simp only [validateStoryboard, hp, hl]
    | ok v => simp only [validateStoryboard, hp, hl]

/-! ## The claims -/

/-- Concrete storyboard for the identifier-sanitizing scenario of C5. -/
def sbC5 : JsValue := .obj [("meta", .obj [("videoId", .str "3-ways-ai-helps")])]

/-- C5: for `meta.videoId = "3-ways-ai-helps"`, the component identifier
embedded in the generated Video.tsx — `camelCase` applied to the videoId —
is a valid code identifier: non-empty and not starting with a digit
(`camelCase`'s second pass strips the leading run of non-letters, which
includes digits, so the result is `"WaysAiHelps"`, and the generated file
contains `export const WaysAiHelps`). -/
theorem c5_sanitized_identifier_is_valid :
    camelCase "3-ways-ai-helps" = "WaysAiHelps" ∧
    camelCase "3-ways-ai-helps" ≠ "" ∧
    ((camelCase "3-ways-ai-helps").data.headD '0').isDigit = false ∧
    (match writeVideoTsx sbC5 "out" emptyFS with
      | .ok (fs, _) => (fs (tsxPath "out")).isSome
      | .error _ => false) = true ∧
    containsB "export const WaysAiHelps".data
      ((match writeVideoTsx sbC5 "out" emptyFS with
        | .ok (fs, _) => (fs (tsxPath "out")).getD ""
        | .error _ => "").data) = true := by
  refine ⟨by decide, by decide, by decide, by decide, by decide⟩

/-- C8: when the `OPENAI_API_KEY` environment credential is absent,
`callOpenAI` fails with the ConfigurationError message before issuing the
HTTP request, and the number of network calls performed is zero. -/
theorem c8_missing_credential_fails_before_network (env : String → Option String)
    (fetchRes : FetchResponse) (h : env "OPENAI_API_KEY" = none) :
    callOpenAI env fetchRes =
      (.error (.config "OPENAI_API_KEY environment variable is not set"), 0) := by
  unfold callOpenAI
  rw [h]

/-- Witness for C8 at a concrete environment and network. -/
theorem c8_missing_credential_fails_before_network_witness :
    callOpenAI (fun _ => none) ⟨true, 200, "", .ok .null⟩ =
      (.error (.config "OPENAI_API_KEY environment variable is not set"), 0) :=
  c8_missing_credential_fails_before_network (fun _ => none) ⟨true, 200, "", .ok .null⟩ rfl

/-- Counterexample to C7 as stated: a reply with no fenced block at all
does fail before any write, but with the YAML extraction message, not
`'Unable to find JSON block in response'`. -/
theorem c7_counterexample :
    fencedMatch "```json\n".data "```".data "no fenced blocks here".data = none ∧
    (runPipeline none "no fenced blocks here" "out" emptyFS).2.2 =
      some (.extraction "Unable to find YAML block in response") ∧
    PipeError.extraction "Unable to find YAML block in response" ≠
      .extraction "Unable to find JSON block in response" := by
  refine ⟨by decide, by decide, by decide⟩

/-- C7 (amended): for every reply with no ```json fenced block, the run
fails with an ExtractionError before any file is written — the message is
`'Unable to find JSON block in response'` when a ```yaml fenced block is
present, and `'Unable to find YAML block in response'` otherwise. -/
theorem c7_no_json_fence_extraction_error (yl : Option (String → Except String JsValue))
    (resp outDir : String) (fs : FS)
    (hj : fencedMatch "```json\n".data "```".data resp.data = none) :
    ∃ m, runPipeline yl resp outDir fs = (fs, [], some (.extraction m)) ∧
      (fencedMatch "```yaml\n".data "```".data resp.data = none →
        m = "Unable to find YAML block in response") ∧
      (fencedMatch "```yaml\n".data "```".data resp.data ≠ none →
        m = "Unable to find JSON block in response") := by
  cases hy : fencedMatch "```yaml\n".data "```".data resp.data with
  | none =>
    refine ⟨"Unable to find YAML block in response", ?_, fun _ => rfl, fun hne => absurd rfl hne⟩
    simp only [runPipeline, extractBlocks, hy, hj]
  | some pr =>
    refine ⟨"Unable to find JSON block in response", ?_, fun h0 => Option.noConfusion h0,
      fun _ => rfl⟩
    simp only [runPipeline, extractBlocks, hy, hj]

/-- Witness for C7 at a concrete reply, discharging its hypothesis. -/
theorem c7_no_json_fence_extraction_error_witness :
    ∃ m, runPipeline none "just text" "out" emptyFS = (emptyFS, [], some (.extraction m)) ∧
      (fencedMatch "```yaml\n".data "```".data "just text".data = none →
        m = "Unable to find YAML block in response") ∧
      (fencedMatch "```yaml\n".data "```".data "just text".data ≠ none →
        m = "Unable to find JSON block in response") :=
  c7_no_json_fence_extraction_error none "just text" "out" emptyFS (by decide)

/-- Concrete reply whose JSON block is invalid, for the C1 counterexample. -/
def replyC1 : String := "```yaml\nfoo: 1\n```\n```json\n\x7b invalid\n```"

/-- Counterexample to C1 as stated: on a reply whose JSON block fails to
parse, the run does fail with the ParseError, but the output directory
already contains `storyboard.yaml` and `storyboard.json` (they are
written before validation), contradicting "contains no storyboard.yaml". -/
theorem c1_counterexample :
    (runPipeline none replyC1 "out" emptyFS).2.2 =
      some (.parse "Invalid JSON returned by OpenAI: Expected string key in JSON") ∧
    (runPipeline none replyC1 "out" emptyFS).1 (yamlPath "out") = some "foo: 1" ∧
    (runPipeline none replyC1 "out" emptyFS).1 (jsonPath "out") = some "\x7b invalid" := by
  refine ⟨by decide, by decide, by decide⟩

/-- C1 (amended): for every reply whose extracted JSON block fails to
parse, the pipeline fails with the ParseError and no artifact beyond the
two serialization files is written: after the failed run the output
directory contains exactly `storyboard.yaml` and `storyboard.json` (the
trimmed block texts, written before validation) and nothing else — no
Video.tsx, no placeholder audio files, no summary. -/
theorem c1_parse_error_only_serializations_written
    (yl : Option (String → Except String JsValue)) (resp outDir : String) (fs : FS)
    (y j sm m : String) (hex : extractBlocks resp = .ok (y, j, sm))
    (hp : parseJson j = .error m) :
    (runPipeline yl resp outDir fs).2.2 =
      some (.parse ("Invalid JSON returned by OpenAI: " ++ m)) ∧
    (runPipeline yl resp outDir fs).1 (yamlPath outDir) = some y ∧
    (runPipeline yl resp outDir fs).1 (jsonPath outDir) = some j ∧
    ∀ q, q ≠ yamlPath outDir → q ≠ jsonPath outDir →
      (runPipeline yl resp outDir fs).1 q = fs q := by
  have hval := validate_parse_error yl y j m hp
  have hrun : runPipeline yl resp outDir fs =
      (writeF (jsonPath outDir) j (writeF (yamlPath outDir) y fs),
       (validateStoryboard yl y j).1,
       some (.parse ("Invalid JSON returned by OpenAI: " ++ m))) := by
    simp only [runPipeline, hex, hval]
  rw [hrun]
  refine ⟨rfl, ?_, writeF_self _ _ _, ?_⟩
  · show writeF (jsonPath outDir) j (writeF (yamlPath outDir) y fs) (yamlPath outDir) = some y
    rw [writeF_ne _ _ _ _ (yamlPath_ne_jsonPath outDir)]
    exact writeF_self _ _ _
  · intro q hqy hqj
    show writeF (jsonPath outDir) j (writeF (yamlPath outDir) y fs) q = fs q
    rw [writeF_ne _ _ _ _ hqj, writeF_ne _ _ _ _ hqy]

/-- Witness for C1's amended theorem at a concrete reply. -/
theorem c1_parse_error_only_serializations_written_witness :
    (runPipeline none replyC1 "outW" emptyFS).2.2 =
      some (.parse ("Invalid JSON returned by OpenAI: " ++ "Expected string key in JSON")) ∧
    (runPipeline none replyC1 "outW" emptyFS).1 (yamlPath "outW") = some "foo: 1" ∧
    (runPipeline none replyC1 "outW" emptyFS).1 (jsonPath "outW") = some "\x7b invalid" ∧
    ∀ q, q ≠ yamlPath "outW" → q ≠ jsonPath "outW" →
      (runPipeline none replyC1 "outW" emptyFS).1 q = emptyFS q :=
  c1_parse_error_only_serializations_written none replyC1 "outW" emptyFS
    "foo: 1" "\x7b invalid" "" "Expected string key in JSON" rfl rfl

/-- Concrete reply for the C2 counterexample: the YAML block's inner text
between the fence markers is `"a: 1\n"`, with a trailing newline. -/
def replyC2 : String := "```yaml\na: 1\n```\n```json\n\x7b\x7d\n```"

/-- Counterexample to C2 as stated: the bytes written to storyboard.yaml
are the fence-delimited text after `trim()`, not the exact bytes between
the fence markers — the trailing newline is removed. -/
theorem c2_counterexample :
    replyC2 = "```yaml\n" ++ "a: 1\n" ++ "```" ++ "\n```json\n\x7b\x7d\n```" ∧
    fencedMatch "```yaml\n".data "```".data replyC2.data =
      some ("a: 1\n".data, "\n```json\n\x7b\x7d\n```".data) ∧
    (runPipeline none replyC2 "out" emptyFS).1 (yamlPath "out") = some "a: 1" ∧
    ("a: 1" : String) ≠ "a: 1\n" := by
  refine ⟨by decide, by decide, by decide, by decide⟩

/-- C2 (amended): the serialization writer writes, byte for byte, the
fence-delimited block texts after trimming leading and trailing
whitespace: for every reply, `storyboard.yaml` and `storyboard.json`
contain exactly the extracted block texts, and each equals the trim of
the text its fenced match captured. -/
theorem c2_blocks_written_trimmed (yl : Option (String → Except String JsValue))
    (resp outDir : String) (fs : FS) (y j sm : String)
    (hex : extractBlocks resp = .ok (y, j, sm)) :
    (runPipeline yl resp outDir fs).1 (yamlPath outDir) = some y ∧
    (runPipeline yl resp outDir fs).1 (jsonPath outDir) = some j ∧
    (∀ g rest, fencedMatch "```yaml\n".data "```".data resp.data = some (g, rest) →
      y = ⟨trimChars g⟩) ∧
    (∀ g rest, fencedMatch "```json\n".data "```".data resp.data = some (g, rest) →
      j = ⟨trimChars g⟩) := by
  obtain ⟨h1, h2⟩ := runPipeline_writes yl resp outDir fs y j sm hex
  refine ⟨h1, h2, ?_, ?_⟩
  · intro g rest hg
    cases hj2 : fencedMatch "```json\n".data "```".data resp.data with
    | none =>
      simp only [extractBlocks, hg, hj2] at hex
      exact Except.noConfusion hex
    | some pr =>
      obtain ⟨jg, jrest⟩ := pr
      simp only [extractBlocks, hg, hj2] at hex
      injection hex with hx
      exact (congrArg Prod.fst hx).symm
  · intro g rest hg
    cases hy2 : fencedMatch "```yaml\n".data "```".data resp.data with
    | none =>
      simp only [extractBlocks, hy2, hg] at hex
      exact Except.noConfusion hex
    | some pr =>
      obtain ⟨yg, yrest⟩ := pr
      simp only [extractBlocks, hy2, hg] at hex
      injection hex with hx
      have := congrArg Prod.snd hx
      exact (congrArg Prod.fst this).symm

/-- Witness for C2's amended theorem at a concrete reply. -/
theorem c2_blocks_written_trimmed_witness :
    (runPipeline none replyC2 "outW" emptyFS).1 (yamlPath "outW") = some "a: 1" ∧
    (runPipeline none replyC2 "outW" emptyFS).1 (jsonPath "outW") = some "\x7b\x7d" ∧
    (∀ g rest, fencedMatch "```yaml\n".data "```".data replyC2.data = some (g, rest) →
      ("a: 1" : String) = ⟨trimChars g⟩) ∧
    (∀ g rest, fencedMatch "```json\n".data "```".data replyC2.data = some (g, rest) →
      ("\x7b\x7d" : String) = ⟨trimChars g⟩) :=
  c2_blocks_written_trimmed none replyC2 "outW" emptyFS "a: 1" "\x7b\x7d" "" rfl

theorem validate_ok_snd (yl : Option (String → Except String JsValue)) (y j : String)
    (jsonObj : JsValue) (w3 : List Warning)
    (hp : parseJson j = .ok jsonObj) (hd : durationCheck jsonObj = .ok w3) :
    ∃ yo, (validateStoryboard yl y j).2 = .ok (yo, jsonObj) := by
  cases yl with
  | none =>
    refine ⟨none, ?_⟩
    simp only [validateStoryboard, hp, hd]
  | some load =>
    cases hl : load y with
    | error m2 =>
      refine ⟨none, ?_⟩
      simp only [validateStoryboard, hp, hd, hl]
    | ok v =>
      refine ⟨some v, ?_⟩
      simp only [validateStoryboard, hp, hd, hl]

theorem getProp_ok_of_not_nullish (v : JsValue) (k : String)
    (hu : v ≠ .undefined) (hn : v ≠ .null) : ∃ w, v.getProp k = .ok w := by
  cases v with
  | undefined => exact absurd rfl hu
  | null => exact absurd rfl hn
  | jbool b => exact ⟨_, rfl⟩
  | num q => exact ⟨_, rfl⟩
  | nan => exact ⟨_, rfl⟩
  | str s => exact ⟨_, rfl⟩
  | arr l => exact ⟨_, rfl⟩
  | obj fields => exact ⟨_, rfl⟩

theorem truthy_not_nullish (v : JsValue) (h : v.truthy = true) : v ≠ .undefined ∧ v ≠ .null := by
  cases v with
  | undefined => exact absurd h (by decide)
  | null => exact absurd h (by decide)
  | jbool b => exact ⟨fun he => JsValue.noConfusion he, fun he => JsValue.noConfusion he⟩
  | num q => exact ⟨fun he => JsValue.noConfusion he, fun he => JsValue.noConfusion he⟩
  | nan => exact ⟨fun he => JsValue.noConfusion he, fun he => JsValue.noConfusion he⟩
  | str s => exact ⟨fun he => JsValue.noConfusion he, fun he => JsValue.noConfusion he⟩
  | arr l => exact ⟨fun he => JsValue.noConfusion he, fun he => JsValue.noConfusion he⟩
  | obj fields => exact ⟨fun he => JsValue.noConfusion he, fun he => JsValue.noConfusion he⟩

theorem sumDurations_ok (l : List JsValue) (acc : JsValue)
    (h : ∀ s ∈ l, s ≠ .undefined ∧ s ≠ .null) : ∃ v, sumDurations l acc = .ok v := by
  induction l generalizing acc with
  | nil => exact ⟨acc, rfl⟩
  | cons s rest ih =>
    obtain ⟨hu, hn⟩ := h s (List.mem_cons_self s rest)
    obtain ⟨d, hd⟩ := getProp_ok_of_not_nullish s "durationSec" hu hn
    have := ih (jsAdd acc (if d.truthy then d else .num 0))
      (fun t ht => h t (List.mem_cons_of_mem s ht))
    obtain ⟨v, hv⟩ := this
    refine ⟨v, ?_⟩
    unfold sumDurations
    rw [hd]
    exact hv

/-- The non-fatality core of C6: whenever the duration check runs on a
structure whose slide entries are not nullish, it returns (it may warn,
but never throws), whatever the declared total is. -/
theorem durationCheck_never_fatal (jsonObj meta : JsValue) (l : List JsValue)
    (hm : jsonObj.getProp "meta" = .ok meta)
    (hs : jsonObj.getProp "slides" = .ok (.arr l))
    (hwf : ∀ s ∈ l, s ≠ .undefined ∧ s ≠ .null) :
    ∃ ws, durationCheck jsonObj = .ok ws := by
  obtain ⟨total, htot⟩ := sumDurations_ok l (.num 0) hwf
  by_cases hmt : meta.truthy = true
  · obtain ⟨hu, hn⟩ := truthy_not_nullish meta hmt
    obtain ⟨tds, htds⟩ := getProp_ok_of_not_nullish meta "totalDurationSec" hu hn
    by_cases hw : tds.truthy = true ∧ ¬ jsStrictEq total tds = true
    · refine ⟨[.durationMismatch tds total], ?_⟩
      simp only [durationCheck, hm, hs, htot, htds, hmt, if_true, if_pos hw]
    · refine ⟨[], ?_⟩
      simp only [durationCheck, hm, hs, htot, htds, hmt, if_true, if_neg hw]
  · refine ⟨[], ?_⟩
    simp only [durationCheck, hm, hmt]
    rw [if_neg (by simpa using hmt)]

/-- A slide record for the duration-check scenarios. -/
def mkSlideC6 (id : String) (dur : Int) : JsValue :=
  .obj [("id", .str id), ("durationSec", .num ⟨dur, 1⟩)]

/-- Duration scenario: slides [20, 25, 15] with declared total 60. -/
def sb60 : JsValue :=
  .obj [("meta", .obj [("videoId", .str "demo"), ("totalDurationSec", .num ⟨60, 1⟩)]),
        ("slides", .arr [mkSlideC6 "s1" 20, mkSlideC6 "s2" 25, mkSlideC6 "s3" 15])]

/-- Duration scenario: slides [20, 25, 15] with declared total 50. -/
def sb50 : JsValue :=
  .obj [("meta", .obj [("videoId", .str "demo"), ("totalDurationSec", .num ⟨50, 1⟩)]),
        ("slides", .arr [mkSlideC6 "s1" 20, mkSlideC6 "s2" 25, mkSlideC6 "s3" 15])]

/-- A reply whose JSON block is the declared-total-50 scenario. -/
def replyC6 : String := String.intercalate "\n" [
  "```yaml",
  "meta: demo",
  "```",
  "```json",
  "\x7b\"meta\": \x7b\"videoId\": \"demo\", \"totalDurationSec\": 50, \"defaultFps\": 30\x7d, \"slides\": [\x7b\"id\": \"s1\", \"durationSec\": 20\x7d, \x7b\"id\": \"s2\", \"durationSec\": 25\x7d, \x7b\"id\": \"s3\", \"durationSec\": 15\x7d]\x7d",
  "```",
  "Exec summary table"
]

/-- C6: the validator sums `slides[].durationSec` against
`meta.totalDurationSec`. For durations [20, 25, 15] and declared total 60
no duration warning is emitted; with declared total 50 the mismatch
warning (declared 50, sum 60) is emitted but the run completes and all
artifact files are written; and on any structure whose slide entries are
not nullish the duration check returns instead of throwing — the
mismatch is never fatal. -/
theorem c6_duration_mismatch_warns_never_fatal :
    durationCheck sb60 = .ok [] ∧
    durationCheck sb50 = .ok [.durationMismatch (.num ⟨50, 1⟩) (.num ⟨60, 1⟩)] ∧
    (runPipeline none replyC6 "out" emptyFS).2.2 = none ∧
    (runPipeline none replyC6 "out" emptyFS).2.1 =
      [.yamlDisabled, .durationMismatch (.num ⟨50, 1⟩) (.num ⟨60, 1⟩)] ∧
    ((runPipeline none replyC6 "out" emptyFS).1 (yamlPath "out")).isSome = true ∧
    ((runPipeline none replyC6 "out" emptyFS).1 (jsonPath "out")).isSome = true ∧
    ((runPipeline none replyC6 "out" emptyFS).1 (tsxPath "out")).isSome = true ∧
    (runPipeline none replyC6 "out" emptyFS).1 (voPathOf "out" (.str "s1")) = some "" ∧
    (runPipeline none replyC6 "out" emptyFS).1 (voPathOf "out" (.str "s2")) = some "" ∧
    (runPipeline none replyC6 "out" emptyFS).1 (voPathOf "out" (.str "s3")) = some "" ∧
    (runPipeline none replyC6 "out" emptyFS).1 (summaryPath "out") = some "Exec summary table" ∧
    (∀ (jsonObj meta : JsValue) (l : List JsValue),
      jsonObj.getProp "meta" = .ok meta →
      jsonObj.getProp "slides" = .ok (.arr l) →
      (∀ s ∈ l, s ≠ .undefined ∧ s ≠ .null) →
      ∃ ws, durationCheck jsonObj = .ok ws) := by
  refine ⟨rfl, rfl, rfl, rfl, rfl, rfl, rfl, rfl, rfl, rfl, rfl, ?_⟩
  exact durationCheck_never_fatal

/-- Witness for C6's universal non-fatality component at the concrete
declared-total-50 structure, discharging its hypotheses. -/
theorem c6_duration_mismatch_warns_never_fatal_witness :
    ∃ ws, durationCheck sb50 = .ok ws := by
  refine c6_duration_mismatch_warns_never_fatal.2.2.2.2.2.2.2.2.2.2.2 sb50
    (.obj [("videoId", .str "demo"), ("totalDurationSec", .num ⟨50, 1⟩)])
    [mkSlideC6 "s1" 20, mkSlideC6 "s2" 25, mkSlideC6 "s3" 15] rfl rfl ?_
  intro s hs
  simp only [List.mem_cons, List.not_mem_nil, or_false] at hs
  rcases hs with h | h | h <;> subst h <;>
    exact ⟨fun he => JsValue.noConfusion he, fun he => JsValue.noConfusion he⟩

theorem tsxRender_no_meta (fields : List (String × JsValue))
    (hm : ((fields.lookup "meta").getD .undefined).truthy = false) :
    tsxRender (.obj fields) = .ok (none, [.noMeta]) := by
  have hg : JsValue.getProp (.obj fields) "meta" = .ok ((fields.lookup "meta").getD .undefined) := rfl
  simp only [tsxRender, hg, hm]
  rfl

theorem writeVideoTsx_no_meta (fields : List (String × JsValue)) (outDir : String) (fs : FS)
    (hm : ((fields.lookup "meta").getD .undefined).truthy = false) :
    writeVideoTsx (.obj fields) outDir fs = .ok (fs, [.noMeta]) := by
  unfold writeVideoTsx
  rw [tsxRender_no_meta fields hm]

theorem durationCheck_no_meta (fields : List (String × JsValue))
    (hm : ((fields.lookup "meta").getD .undefined).truthy = false) :
    durationCheck (.obj fields) = .ok [] := by
  have hg : JsValue.getProp (.obj fields) "meta" = .ok ((fields.lookup "meta").getD .undefined) := rfl
  simp only [durationCheck, hg, hm]
  rfl

theorem voiceFold_ok (d : String) (l : List JsValue) (fs : FS)
    (h : ∀ s ∈ l, s ≠ .undefined ∧ s ≠ .null) : ∃ fs4, voiceFold d l fs = .ok fs4 := by
  induction l generalizing fs with
  | nil => exact ⟨fs, rfl⟩
  | cons s rest ih =>
    obtain ⟨hu, hn⟩ := h s (List.mem_cons_self s rest)
    obtain ⟨idv, hid⟩ := getProp_ok_of_not_nullish s "id" hu hn
    obtain ⟨fs4, h4⟩ := ih (writeF (voPathOf d idv) "" fs)
      (fun t ht => h t (List.mem_cons_of_mem s ht))
    refine ⟨fs4, ?_⟩
    unfold voiceFold
    rw [hid]
    exact h4

theorem createVo_unfold_arr (fields : List (String × JsValue)) (d : String) (fs : FS)
    (l : List JsValue) (hs : (fields.lookup "slides").getD .undefined = .arr l) :
    createVoiceoverPlaceholders (.obj fields) d fs = voiceFold d l fs := by
  unfold createVoiceoverPlaceholders
  have hg : JsValue.getProp (.obj fields) "slides" = .ok (.arr l) := by
    show Except.ok ((fields.lookup "slides").getD .undefined) = _
    rw [hs]
  rw [hg]
  rfl

/-- C9: for every parsed storyboard object whose `meta` is absent (or
otherwise falsy), `writeVideoTsx` emits the no-meta warning and returns
without writing `Video.tsx`; the run is not aborted — the placeholder
audio files and the summary file are still produced. -/
theorem c9_absent_meta_skips_tsx_run_continues :
    (∀ (fields : List (String × JsValue)) (outDir : String) (fs : FS),
      ((fields.lookup "meta").getD .undefined).truthy = false →
      writeVideoTsx (.obj fields) outDir fs = .ok (fs, [.noMeta])) ∧
    (∀ (yl : Option (String → Except String JsValue)) (resp outDir : String) (fs : FS)
      (y j sm : String) (fields : List (String × JsValue)) (l : List JsValue),
      extractBlocks resp = .ok (y, j, sm) →
      parseJson j = .ok (.obj fields) →
      ((fields.lookup "meta").getD .undefined).truthy = false →
      (fields.lookup "slides").getD .undefined = .arr l →
      (∀ s ∈ l, ∃ sfs, s = .obj sfs) →
      (runPipeline yl resp outDir fs).2.2 = none ∧
      Warning.noMeta ∈ (runPipeline yl resp outDir fs).2.1 ∧
      (runPipeline yl resp outDir fs).1 (tsxPath outDir) = fs (tsxPath outDir) ∧
      (∀ s ∈ l, ∀ sfs, s = .obj sfs →
        (runPipeline yl resp outDir fs).1
          (voPathOf outDir ((sfs.lookup "id").getD .undefined)) = some "") ∧
      (sm ≠ "" → (runPipeline yl resp outDir fs).1 (summaryPath outDir) = some (jsTrim sm))) := by
  constructor
  · exact fun fields outDir fs hm => writeVideoTsx_no_meta fields outDir fs hm
  intro yl resp outDir fs y j sm fields l hex hp hm hs hwf
  have hwfn : ∀ s ∈ l, s ≠ JsValue.undefined ∧ s ≠ JsValue.null := by
    intro s hsm
    obtain ⟨sfs, hobj⟩ := hwf s hsm
    subst hobj
    exact ⟨fun he => JsValue.noConfusion he, fun he => JsValue.noConfusion he⟩
  obtain ⟨yo, hv⟩ := validate_ok_snd yl y j (.obj fields) [] hp (durationCheck_no_meta fields hm)
  have htsx := writeVideoTsx_no_meta fields outDir
    (writeF (jsonPath outDir) j (writeF (yamlPath outDir) y fs)) hm
  have hcvu := createVo_unfold_arr fields outDir
    (writeF (jsonPath outDir) j (writeF (yamlPath outDir) y fs)) l hs
  obtain ⟨fs4, hvf⟩ := voiceFold_ok outDir l
    (writeF (jsonPath outDir) j (writeF (yamlPath outDir) y fs)) hwfn
  have hcv : createVoiceoverPlaceholders (.obj fields) outDir
      (writeF (jsonPath outDir) j (writeF (yamlPath outDir) y fs)) = .ok fs4 :=
    hcvu.trans hvf
  have hrun : runPipeline yl resp outDir fs =
      (writeSummary sm outDir fs4,
       (validateStoryboard yl y j).1 ++ [.noMeta], none) := by
    simp only [runPipeline, hex, hv, htsx, hcv]
  rw [hrun]
  refine ⟨rfl, ?_, ?_, ?_, ?_⟩
  · exact List.mem_append.mpr (Or.inr (List.mem_singleton.mpr rfl))
  · show writeSummary sm outDir fs4 (tsxPath outDir) = fs (tsxPath outDir)
    rw [writeSummary_preserves _ _ _ _ (Ne.symm (summaryPath_ne_tsxPath outDir))]
    have h4 : fs4 (tsxPath outDir) =
        writeF (jsonPath outDir) j (writeF (yamlPath outDir) y fs) (tsxPath outDir) :=
      voiceFold_preserves outDir l _ fs4 hvf _ (fun idv => Ne.symm (vo_ne_tsxPath outDir idv))
    rw [h4, writeF_ne _ _ _ _ (tsxPath_ne_jsonPath outDir),
      writeF_ne _ _ _ _ (tsxPath_ne_yamlPath outDir)]
  · intro s hsm sfs hobj
    show writeSummary sm outDir fs4 (voPathOf outDir ((sfs.lookup "id").getD .undefined)) = some ""
    rw [writeSummary_preserves _ _ _ _ (vo_ne_summaryPath outDir _)]
    exact voiceFold_writes outDir l _ fs4 hvf s hsm sfs hobj
  · intro hsm
    exact writeSummary_self sm outDir fs4 hsm

/-- A reply whose storyboard has no `meta` field, for the C9 witness. -/
def replyC9 : String := "```yaml\nx: 1\n```\n```json\n\x7b\"slides\": [\x7b\"id\": \"a\"\x7d]\x7d\n```\nsummary here"

/-- Witness for C9 at a concrete reply, discharging its hypotheses. -/
theorem c9_absent_meta_skips_tsx_run_continues_witness :
    (runPipeline none replyC9 "out" emptyFS).2.2 = none ∧
    Warning.noMeta ∈ (runPipeline none replyC9 "out" emptyFS).2.1 ∧
    (runPipeline none replyC9 "out" emptyFS).1 (tsxPath "out") = emptyFS (tsxPath "out") ∧
    (∀ s ∈ [JsValue.obj [("id", JsValue.str "a")]], ∀ sfs, s = JsValue.obj sfs →
      (runPipeline none replyC9 "out" emptyFS).1
        (voPathOf "out" ((sfs.lookup "id").getD .undefined)) = some "") ∧
    ("summary here" ≠ "" → (runPipeline none replyC9 "out" emptyFS).1 (summaryPath "out") =
      some (jsTrim "summary here")) :=
  c9_absent_meta_skips_tsx_run_continues.2 none replyC9 "out" emptyFS "x: 1"
    "\x7b\"slides\": [\x7b\"id\": \"a\"\x7d]\x7d" "summary here"
    [("slides", .arr [.obj [("id", .str "a")]])] [.obj [("id", .str "a")]]
    rfl rfl rfl rfl
    (by
      intro s hsm
      simp only [List.mem_singleton] at hsm
      exact ⟨_, hsm⟩)

theorem createVo_not_array (fields : List (String × JsValue)) (d : String) (fs : FS)
    (v : JsValue) (hs : (fields.lookup "slides").getD .undefined = v) (hna : ∀ l, v ≠ .arr l) :
    ∃ msg, createVoiceoverPlaceholders (.obj fields) d fs = .error (.typeError msg) := by
  unfold createVoiceoverPlaceholders
  have hg : JsValue.getProp (.obj fields) "slides" = .ok v := by
    show Except.ok ((fields.lookup "slides").getD .undefined) = _
    rw [hs]
  rw [hg]
  cases v with
  | arr l => exact absurd rfl (hna l)
  | undefined => exact ⟨_, rfl⟩
  | null => exact ⟨_, rfl⟩
  | jbool b => exact ⟨_, rfl⟩
  | num q => exact ⟨_, rfl⟩
  | nan => exact ⟨_, rfl⟩
  | str s2 => exact ⟨_, rfl⟩
  | obj o => exact ⟨_, rfl⟩

theorem durationCheck_slides_not_array (fields : List (String × JsValue)) (v : JsValue)
    (hs : (fields.lookup "slides").getD .undefined = v) (hna : ∀ l, v ≠ .arr l) :
    durationCheck (.obj fields) = .ok [] := by
  have hgm : JsValue.getProp (.obj fields) "meta" = .ok ((fields.lookup "meta").getD .undefined) := rfl
  have hgs : JsValue.getProp (.obj fields) "slides" = .ok v := by
    show Except.ok ((fields.lookup "slides").getD .undefined) = _
    rw [hs]
  by_cases hmt : ((fields.lookup "meta").getD .undefined).truthy = true
  · cases v with
    | arr l => exact absurd rfl (hna l)
    | undefined => simp only [durationCheck, hgm, hgs, hmt, if_true]
    | null => simp only [durationCheck, hgm, hgs, hmt, if_true]
    | jbool b => simp only [durationCheck, hgm, hgs, hmt, if_true]
    | num q => simp only [durationCheck, hgm, hgs, hmt, if_true]
    | nan => simp only [durationCheck, hgm, hgs, hmt, if_true]
    | str s2 => simp only [durationCheck, hgm, hgs, hmt, if_true]
    | obj o => simp only [durationCheck, hgm, hgs, hmt, if_true]
  · simp only [durationCheck, hgm]
    rw [if_neg (by simpa using hmt)]

/-- C10: for every parsed storyboard object whose `slides` field is
missing or not an array, `createVoiceoverPlaceholders` throws a TypeError
(the `forEach` call fails), so the whole run fails — but only after
`storyboard.yaml`, `storyboard.json` and `Video.tsx` (when `meta` renders)
have already been written; in contrast with an absent `meta`, which is
only a warning. -/
theorem c10_bad_slides_fails_after_writes :
    (∀ (fields : List (String × JsValue)) (d : String) (fs : FS) (v : JsValue),
      (fields.lookup "slides").getD .undefined = v → (∀ l, v ≠ .arr l) →
      ∃ msg, createVoiceoverPlaceholders (.obj fields) d fs = .error (.typeError msg)) ∧
    (∀ (yl : Option (String → Except String JsValue)) (resp outDir : String) (fs : FS)
      (y j sm : String) (fields : List (String × JsValue)) (v : JsValue) (t : String),
      extractBlocks resp = .ok (y, j, sm) →
      parseJson j = .ok (.obj fields) →
      (fields.lookup "slides").getD .undefined = v →
      (∀ l, v ≠ .arr l) →
      tsxRender (.obj fields) = .ok (some t, []) →
      ∃ msg, (runPipeline yl resp outDir fs).2.2 = some (.typeError msg) ∧
        (runPipeline yl resp outDir fs).1 (yamlPath outDir) = some y ∧
        (runPipeline yl resp outDir fs).1 (jsonPath outDir) = some j ∧
        (runPipeline yl resp outDir fs).1 (tsxPath outDir) = some t ∧
        ∀ q, q ≠ yamlPath outDir → q ≠ jsonPath outDir → q ≠ tsxPath outDir →
          (runPipeline yl resp outDir fs).1 q = fs q) := by
  constructor
  · exact createVo_not_array
  intro yl resp outDir fs y j sm fields v t hex hp hs hna ht
  obtain ⟨yo, hv⟩ := validate_ok_snd yl y j (.obj fields) []
    hp (durationCheck_slides_not_array fields v hs hna)
  have hwv : writeVideoTsx (.obj fields) outDir
      (writeF (jsonPath outDir) j (writeF (yamlPath outDir) y fs)) =
      .ok (writeF (tsxPath outDir) t
        (writeF (jsonPath outDir) j (writeF (yamlPath outDir) y fs)), []) := by
    unfold writeVideoTsx
    rw [ht]
    rfl
  obtain ⟨msg, hcv⟩ := createVo_not_array fields outDir
    (writeF (tsxPath outDir) t (writeF (jsonPath outDir) j (writeF (yamlPath outDir) y fs)))
    v hs hna
  have hrun : runPipeline yl resp outDir fs =
      (writeF (tsxPath outDir) t (writeF (jsonPath outDir) j (writeF (yamlPath outDir) y fs)),
       (validateStoryboard yl y j).1 ++ [], some (.typeError msg)) := by
    simp only [runPipeline, hex, hv, hwv, hcv]
  rw [hrun]
  refine ⟨msg, rfl, ?_, ?_, writeF_self _ _ _, ?_⟩
  · show writeF (tsxPath outDir) t
      (writeF (jsonPath outDir) j (writeF (yamlPath outDir) y fs)) (yamlPath outDir) = some y
    rw [writeF_ne _ _ _ _ (Ne.symm (tsxPath_ne_yamlPath outDir)),
      writeF_ne _ _ _ _ (yamlPath_ne_jsonPath outDir)]
    exact writeF_self _ _ _
  · show writeF (tsxPath outDir) t
      (writeF (jsonPath outDir) j (writeF (yamlPath outDir) y fs)) (jsonPath outDir) = some j
    rw [writeF_ne _ _ _ _ (Ne.symm (tsxPath_ne_jsonPath outDir))]
    exact writeF_self _ _ _
  · intro q hq1 hq2 hq3
    show writeF (tsxPath outDir) t
      (writeF (jsonPath outDir) j (writeF (yamlPath outDir) y fs)) q = fs q
    rw [writeF_ne _ _ _ _ hq3, writeF_ne _ _ _ _ hq2, writeF_ne _ _ _ _ hq1]

/-- The parsed storyboard of the C10 witness reply: `slides` is a number. -/
def sbC10 : JsValue := .obj [("meta", .obj [("videoId", .str "demo")]), ("slides", .num ⟨5, 1⟩)]

/-- The `Video.tsx` text rendered for `sbC10`. -/
def tsxC10 : String :=
  match tsxRender sbC10 with
  | .ok (some t, _) => t
  | _ => ""

/-- A reply whose storyboard has truthy `meta` but non-array `slides`. -/
def replyC10 : String := "```yaml\nx: 1\n```\n```json\n\x7b\"meta\": \x7b\"videoId\": \"demo\"\x7d, \"slides\": 5\x7d\n```"

/-- Witness for C10 at a concrete reply, discharging its hypotheses. -/
theorem c10_bad_slides_fails_after_writes_witness :
    ∃ msg, (runPipeline none replyC10 "out" emptyFS).2.2 = some (.typeError msg) ∧
      (runPipeline none replyC10 "out" emptyFS).1 (yamlPath "out") = some "x: 1" ∧
      (runPipeline none replyC10 "out" emptyFS).1 (jsonPath "out") =
        some "\x7b\"meta\": \x7b\"videoId\": \"demo\"\x7d, \"slides\": 5\x7d" ∧
      (runPipeline none replyC10 "out" emptyFS).1 (tsxPath "out") = some tsxC10 ∧
      ∀ q, q ≠ yamlPath "out" → q ≠ jsonPath "out" → q ≠ tsxPath "out" →
        (runPipeline none replyC10 "out" emptyFS).1 q = emptyFS q :=
  c10_bad_slides_fails_after_writes.2 none replyC10 "out" emptyFS "x: 1"
    "\x7b\"meta\": \x7b\"videoId\": \"demo\"\x7d, \"slides\": 5\x7d" ""
    [("meta", .obj [("videoId", .str "demo")]), ("slides", .num ⟨5, 1⟩)]
    (.num ⟨5, 1⟩) tsxC10 rfl rfl rfl (fun l h => JsValue.noConfusion h) rfl

/-! ## Helper lemmas: write plans and idempotence -/

/-- The last content written to `q` by a list of writes. -/
def lastWrite : List (String × String) → String → Option String
  | [], _ => none
  | (p, c) :: ws, q =>
    match lastWrite ws q with
    | some c2 => some c2
    | none => if q = p then some c else none

theorem applyWrites_cons (p c : String) (ws : List (String × String)) (fs : FS) :
    applyWrites ((p, c) :: ws) fs = applyWrites ws (writeF p c fs) := rfl

theorem applyWrites_apply (ws : List (String × String)) (fs : FS) (q : String) :
    applyWrites ws fs q =
      match lastWrite ws q with
      | some c => some c
      | none => fs q := by
  induction ws generalizing fs with
  | nil => rfl
  | cons w ws ih =>
    obtain ⟨p, c⟩ := w
    rw [applyWrites_cons, ih]
    cases h : lastWrite ws q with
    | some c2 => simp [lastWrite, h]
    | none =>
      simp only [lastWrite, h, writeF]
      split
      · rfl
      · rfl

theorem applyWrites_idem (ws : List (String × String)) (fs : FS) :
    applyWrites ws (applyWrites ws fs) = applyWrites ws fs := by
  funext q
  rw [applyWrites_apply ws (applyWrites ws fs) q, applyWrites_apply ws fs q]
  cases lastWrite ws q with
  | some c => rfl
  | none => rfl

theorem applyWrites_append (xs ys : List (String × String)) (fs : FS) :
    applyWrites (xs ++ ys) fs = applyWrites ys (applyWrites xs fs) := by
  unfold applyWrites
  exact List.foldl_append _ _ _ _

theorem writeVideoTsx_shape (sb : JsValue) (d : String) :
    (∃ e, ∀ fs, writeVideoTsx sb d fs = .error e) ∨
    (∃ ws w, ∀ fs : FS, writeVideoTsx sb d fs = .ok (applyWrites ws fs, w)) := by
  cases ht : tsxRender sb with
  | error e =>
    exact Or.inl ⟨e, fun fs => by unfold writeVideoTsx; rw [ht]⟩
  | ok pr =>
    obtain ⟨ow, w⟩ := pr
    cases ow with
    | none =>
      exact Or.inr ⟨[], w, fun fs => by unfold writeVideoTsx; rw [ht]; rfl⟩
    | some tsx =>
      exact Or.inr ⟨[(pathJoin d "Video.tsx", tsx)], w,
        fun fs => by unfold writeVideoTsx; rw [ht]; rfl⟩

theorem voiceFold_shape (d : String) (l : List JsValue) :
    (∃ e, ∀ fs, voiceFold d l fs = .error e) ∨
    (∃ ws, ∀ fs : FS, voiceFold d l fs = .ok (applyWrites ws fs)) := by
  induction l with
  | nil => exact Or.inr ⟨[], fun fs => rfl⟩
  | cons s rest ih =>
    cases hg : s.getProp "id" with
    | error e =>
      exact Or.inl ⟨e, fun fs => by unfold voiceFold; rw [hg]; rfl⟩
    | ok idv =>
      rcases ih with ⟨e, he⟩ | ⟨ws, hws⟩
      · refine Or.inl ⟨e, fun fs => ?_⟩
        unfold voiceFold
        rw [hg]
        exact he _
      · refine Or.inr ⟨(voPathOf d idv, "") :: ws, fun fs => ?_⟩
        unfold voiceFold
        rw [hg]
        exact hws _

theorem createVo_shape (sb : JsValue) (d : String) :
    (∃ e, ∀ fs, createVoiceoverPlaceholders sb d fs = .error e) ∨
    (∃ ws, ∀ fs : FS, createVoiceoverPlaceholders sb d fs = .ok (applyWrites ws fs)) := by
  cases hg : sb.getProp "slides" with
  | error e =>
    exact Or.inl ⟨e, fun fs => by unfold createVoiceoverPlaceholders; rw [hg]; rfl⟩
  | ok v =>
    cases v with
    | arr l =>
      rcases voiceFold_shape d l with ⟨e, he⟩ | ⟨ws, hws⟩
      · exact Or.inl ⟨e, fun fs => by unfold createVoiceoverPlaceholders; rw [hg]; exact he _⟩
      · exact Or.inr ⟨ws, fun fs => by unfold createVoiceoverPlaceholders; rw [hg]; exact hws _⟩
    | undefined => exact Or.inl ⟨_, fun fs => by unfold createVoiceoverPlaceholders; rw [hg]; rfl⟩
    | null => exact Or.inl ⟨_, fun fs => by unfold createVoiceoverPlaceholders; rw [hg]; rfl⟩
    | jbool b => exact Or.inl ⟨_, fun fs => by unfold createVoiceoverPlaceholders; rw [hg]; rfl⟩
    | num q => exact Or.inl ⟨_, fun fs => by unfold createVoiceoverPlaceholders; rw [hg]; rfl⟩
    | nan => exact Or.inl ⟨_, fun fs => by unfold createVoiceoverPlaceholders; rw [hg]; rfl⟩
    | str s2 => exact Or.inl ⟨_, fun fs => by unfold createVoiceoverPlaceholders; rw [hg]; rfl⟩
    | obj o => exact Or.inl ⟨_, fun fs => by unfold createVoiceoverPlaceholders; rw [hg]; rfl⟩

theorem writeSummary_shape (sm d : String) :
    ∃ ws, ∀ fs : FS, writeSummary sm d fs = applyWrites ws fs := by
  by_cases h : sm != ""
  · exact ⟨[(summaryPath d, jsTrim sm)], fun fs => by unfold writeSummary; rw [if_pos h]; rfl⟩
  · exact ⟨[], fun fs => by unfold writeSummary; rw [if_neg h]; rfl⟩

theorem emitAll_shape (y j : String) (sb : JsValue) (sm d : String) :
    (∃ e, ∀ fs, emitAll y j sb sm d fs = .error e) ∨
    (∃ ws w, ∀ fs : FS, emitAll y j sb sm d fs = .ok (applyWrites ws fs, w)) := by
  obtain ⟨wsS, hS⟩ := writeSummary_shape sm d
  rcases writeVideoTsx_shape sb d with ⟨e, he⟩ | ⟨wsT, w, hT⟩
  · refine Or.inl ⟨e, fun fs => ?_⟩
    unfold emitAll
    rw [he]
  rcases createVo_shape sb d with ⟨e, he⟩ | ⟨wsV, hV⟩
  · refine Or.inl ⟨e, fun fs => ?_⟩
    unfold emitAll
    rw [hT]
    show (match createVoiceoverPlaceholders sb d
        (applyWrites wsT (writeF (jsonPath d) j (writeF (yamlPath d) y fs))) with
      | Except.error e => (Except.error e : Except PipeError (FS × List Warning))
      | Except.ok fs4 => Except.ok (writeSummary sm d fs4, w)) = Except.error e
    rw [he]
  refine Or.inr ⟨((yamlPath d, y) :: (jsonPath d, j) :: wsT) ++ (wsV ++ wsS), w, fun fs => ?_⟩
  unfold emitAll
  rw [hT]
  show (match createVoiceoverPlaceholders sb d
      (applyWrites wsT (writeF (jsonPath d) j (writeF (yamlPath d) y fs))) with
    | Except.error e => (Except.error e : Except PipeError (FS × List Warning))
    | Except.ok fs4 => Except.ok (writeSummary sm d fs4, w)) =
    Except.ok (applyWrites (((yamlPath d, y) :: (jsonPath d, j) :: wsT) ++ (wsV ++ wsS)) fs, w)
  rw [hV]
  show Except.ok (writeSummary sm d (applyWrites wsV
      (applyWrites wsT (writeF (jsonPath d) j (writeF (yamlPath d) y fs)))), w) =
    Except.ok (applyWrites (((yamlPath d, y) :: (jsonPath d, j) :: wsT) ++ (wsV ++ wsS)) fs, w)
  rw [hS, applyWrites_append _ (wsV ++ wsS) fs, applyWrites_append wsV wsS]
  rfl

/-- The placeholder path a slide record produces (`slide.id` read off an
object slide; non-objects would throw before writing). -/
def slideVoPath (d : String) (s : JsValue) : String :=
  voPathOf d (match s with | .obj sfs => (sfs.lookup "id").getD .undefined | _ => .undefined)

/-- C4 (amended): re-running the Artifact Emitter with the same structure,
block texts and output directory is idempotent — the second run succeeds
and reproduces the byte-identical filesystem state and warnings; every
slide's placeholder path holds the zero-byte file; and the number of
distinct placeholder files equals the number of slides whenever the
slides' placeholder paths (derived from their ids) are pairwise distinct
— duplicate ids collapse onto one file. -/
theorem c4_emitter_idempotent_count_by_distinct_ids :
    (∀ (y j : String) (sb : JsValue) (sm d : String) (fs fs1 : FS) (w : List Warning),
      emitAll y j sb sm d fs = .ok (fs1, w) → emitAll y j sb sm d fs1 = .ok (fs1, w)) ∧
    (∀ (d : String) (l : List JsValue) (fs fs4 : FS),
      voiceFold d l fs = .ok fs4 →
      ∀ s ∈ l, ∀ sfs, s = .obj sfs → fs4 (slideVoPath d s) = some "") ∧
    (∀ (d : String) (l : List JsValue),
      (l.map (slideVoPath d)).Nodup → ((l.map (slideVoPath d)).dedup).length = l.length) := by
  refine ⟨?_, ?_, ?_⟩
  · intro y j sb sm d fs fs1 w hok
    rcases emitAll_shape y j sb sm d with ⟨e, he⟩ | ⟨ws, w2, hws⟩
    · rw [he] at hok
      exact Except.noConfusion hok
    · rw [hws] at hok
      injection hok with h
      have hfs : applyWrites ws fs = fs1 := congrArg Prod.fst h
      have hw : w2 = w := congrArg Prod.snd h
      rw [hws fs1, ← hfs, applyWrites_idem, hfs, hw]
  · intro d l fs fs4 hok s hs sfs hobj
    have hwr := voiceFold_writes d l fs fs4 hok s hs sfs hobj
    rw [hobj]
    exact hwr
  · intro d l h
    rw [List.dedup_eq_self.mpr h, List.length_map]

/-- Storyboard with two slides sharing the id `intro`, for the C4
counterexample. -/
def sbDup : JsValue :=
  .obj [("meta", .obj [("videoId", .str "demo"), ("totalDurationSec", .num ⟨12, 1⟩)]),
        ("slides", .arr [mkSlideC6 "intro" 5, mkSlideC6 "intro" 7])]

/-- Counterexample to C4 as stated: with two slides sharing an id, the
emitter succeeds but both placeholder writes land on the same path, so
the set of placeholder files has one element while the structure has two
slides — the file count does not equal the slide count. -/
theorem c4_counterexample :
    (([mkSlideC6 "intro" 5, mkSlideC6 "intro" 7].map (slideVoPath "out")).dedup).length = 1 ∧
    ([mkSlideC6 "intro" 5, mkSlideC6 "intro" 7] : List JsValue).length = 2 ∧
    slideVoPath "out" (mkSlideC6 "intro" 5) = slideVoPath "out" (mkSlideC6 "intro" 7) ∧
    (match emitAll "y" "j" sbDup "" "out" emptyFS with
      | .ok (fs1, _) => fs1 (voPathOf "out" (.str "intro"))
      | .error _ => none) = some "" := by
  refine ⟨by decide, by decide, by decide, by decide⟩

/-- The emitter state after one run on the declared-total-50 scenario. -/
def emitC4fs : FS :=
  match emitAll "a: 1" "\x7b\x7d" sb50 "sum" "out" emptyFS with
  | .ok (f, _) => f
  | .error _ => emptyFS

/-- The emitter warnings of that run. -/
def emitC4w : List Warning :=
  match emitAll "a: 1" "\x7b\x7d" sb50 "sum" "out" emptyFS with
  | .ok (_, w) => w
  | .error _ => []

/-- The voiceover writer state after one run on a one-slide list. -/
def vfC4 : FS :=
  match voiceFold "out" [mkSlideC6 "a" 1] emptyFS with
  | .ok f => f
  | .error _ => emptyFS

/-- Witness for C4's amended theorem: each component applied at concrete
inputs, discharging its hypotheses. -/
theorem c4_emitter_idempotent_count_by_distinct_ids_witness :
    emitAll "a: 1" "\x7b\x7d" sb50 "sum" "out" emitC4fs = .ok (emitC4fs, emitC4w) ∧
    vfC4 (slideVoPath "out" (mkSlideC6 "a" 1)) = some "" ∧
    (([mkSlideC6 "s1" 1, mkSlideC6 "s2" 2].map (slideVoPath "out")).dedup).length =
      ([mkSlideC6 "s1" 1, mkSlideC6 "s2" 2] : List JsValue).length := by
  refine ⟨?_, ?_, ?_⟩
  · exact c4_emitter_idempotent_count_by_distinct_ids.1 "a: 1" "\x7b\x7d" sb50 "sum" "out"
      emptyFS emitC4fs emitC4w rfl
  · exact c4_emitter_idempotent_count_by_distinct_ids.2.1 "out" [mkSlideC6 "a" 1]
      emptyFS vfC4 rfl (mkSlideC6 "a" 1) (List.mem_cons_self _ _) _ rfl
  · exact c4_emitter_idempotent_count_by_distinct_ids.2.2 "out"
      [mkSlideC6 "s1" 1, mkSlideC6 "s2" 2] (by decide)

/-! ## Helper lemmas: string search and replacement (for C3) -/

theorem prefix_append_drop (pat l : List Char) (h : pat.isPrefixOf l = true) :
    pat ++ l.drop pat.length = l := by
  obtain ⟨t, ht⟩ := List.isPrefixOf_iff_prefix.mp h
  rw [← ht, List.drop_left]

theorem splitAtFirstAux_eq (pat : List Char) (s : List Char) :
    ∀ acc b a, splitAtFirstAux pat s acc = some (b, a) →
      ∃ u, b = acc.reverse ++ u ∧ u ++ (pat ++ a) = s := by
  induction s with
  | nil =>
    intro acc b a h
    unfold splitAtFirstAux at h
    split at h
    · injection h with h2
      injection h2 with hb ha
      refine ⟨[], by rw [← hb]; simp, ?_⟩
      subst ha
      simp
      assumption
    · exact Option.noConfusion h
  | cons c rest ih =>
    intro acc b a h
    unfold splitAtFirstAux at h
    split at h
    case isTrue hpre =>
      injection h with h2
      injection h2 with hb ha
      refine ⟨[], by rw [← hb]; simp, ?_⟩
      subst ha
      simpa using prefix_append_drop pat (c :: rest) hpre
    case isFalse hpre =>
      obtain ⟨u, hb, hu⟩ := ih (c :: acc) b a h
      refine ⟨c :: u, ?_, ?_⟩
      · rw [hb]
        simp
      · simpa using hu

theorem splitAtFirst_eq (pat s b a : List Char) (h : splitAtFirst pat s = some (b, a)) :
    b ++ (pat ++ a) = s := by
  obtain ⟨u, hb, hu⟩ := splitAtFirstAux_eq pat s [] b a h
  rw [hb]
  simpa using hu

theorem getSubstitution_no_dollar (before matched after rep : List Char) (h : '$' ∉ rep) :
    getSubstitution before matched after rep = rep := by
  induction rep with
  | nil => rfl
  | cons c1 rest ih =>
    have hc1 : c1 ≠ '$' := fun he => h (he ▸ List.mem_cons_self c1 rest)
    have hrest : '$' ∉ rest := fun hm => h (List.mem_cons_of_mem c1 hm)
    cases rest with
    | nil => rfl
    | cons c2 rest2 =>
      unfold getSubstitution
      rw [if_neg hc1]
      rw [ih hrest]

/-- The split of the master prompt at the placeholder. -/
def promptSplit : Option (List Char × List Char) :=
  splitAtFirst PLACEHOLDER.data MASTER_PROMPT.data

/-- The master prompt's text before the placeholder. -/
def promptPre : List Char := (promptSplit.getD ([], [])).1

/-- The master prompt's text after the placeholder. -/
def promptSuf : List Char := (promptSplit.getD ([], [])).2

theorem promptSplit_eq : promptSplit = some (promptPre, promptSuf) := by
  have hs : promptSplit.isSome = true := by decide
  cases h : promptSplit with
  | none => rw [h] at hs; exact Bool.noConfusion hs
  | some p =>
    obtain ⟨p1, p2⟩ := p
    simp only [promptPre, promptSuf, h, Option.getD_some]

theorem composePrompt_eq (T : List Char) (hd : '$' ∉ T) :
    (composePrompt ⟨T⟩).data = promptPre ++ (T ++ promptSuf) := by
  show jsReplaceFirst MASTER_PROMPT.data PLACEHOLDER.data T = _
  unfold jsReplaceFirst
  rw [show splitAtFirst PLACEHOLDER.data MASTER_PROMPT.data = some (promptPre, promptSuf) from
    promptSplit_eq]
  show promptPre ++ getSubstitution promptPre PLACEHOLDER.data promptSuf T ++ promptSuf = _
  rw [getSubstitution_no_dollar promptPre PLACEHOLDER.data promptSuf T hd]
  simp [List.append_assoc]

theorem containsB_iff (pat s : List Char) : containsB pat s = true ↔ pat <:+: s := by
  induction s with
  | nil =>
    show pat.isEmpty = true ↔ _
    rw [List.isEmpty_iff, List.infix_nil]
  | cons c rest ih =>
    show (pat.isPrefixOf (c :: rest) || containsB pat rest) = true ↔ _
    rw [Bool.or_eq_true, ih, List.infix_cons_iff, List.isPrefixOf_iff_prefix]

theorem prefix_append_cases (pat x y : List Char) (h : pat <+: x ++ y) :
    pat <+: x ∨ ∃ b, pat = x ++ b ∧ b <+: y ∧ b ≠ [] := by
  induction x generalizing pat with
  | nil =>
    cases pat with
    | nil => exact Or.inl List.nil_prefix
    | cons c rest =>
      exact Or.inr ⟨c :: rest, by simp, by simpa using h, by simp⟩
  | cons c x' ih =>
    cases pat with
    | nil => exact Or.inl List.nil_prefix
    | cons p pat' =>
      obtain ⟨t, ht⟩ := h
      have ht' : p :: (pat' ++ t) = c :: (x' ++ y) := by simpa using ht
      injection ht' with h1 h2
      subst h1
      rcases ih pat' ⟨t, h2⟩ with hp | ⟨b, hb, hby, hbne⟩
      · obtain ⟨t2, ht2⟩ := hp
        exact Or.inl ⟨t2, by simp [ht2]⟩
      · exact Or.inr ⟨b, by rw [hb]; rfl, hby, hbne⟩

theorem infix_append_cases (pat x y : List Char) (h : pat <:+: x ++ y) :
    pat <:+: x ∨ pat <:+: y ∨
      ∃ a b, a ≠ [] ∧ b ≠ [] ∧ a <:+ x ∧ b <+: y ∧ pat = a ++ b := by
  induction x with
  | nil => exact Or.inr (Or.inl (by simpa using h))
  | cons c x' ih =>
    rw [List.cons_append, List.infix_cons_iff] at h
    rcases h with hp | hi
    · have hp' : pat <+: (c :: x') ++ y := by simpa using hp
      rcases prefix_append_cases pat (c :: x') y hp' with h1 | ⟨b, hb, hby, hbne⟩
      · exact Or.inl h1.isInfix
      · exact Or.inr (Or.inr ⟨c :: x', b, by simp, hbne, List.suffix_refl _, hby, hb⟩)
    · rcases ih hi with h1 | h2 | ⟨a, b, hane, hbne, hax, hby, hab⟩
      · exact Or.inl (h1.trans (List.infix_cons_iff.mpr (Or.inr (List.infix_refl x'))))
      · exact Or.inr (Or.inl h2)
      · refine Or.inr (Or.inr ⟨a, b, hane, hbne, ?_, hby, hab⟩)
        exact hax.trans ⟨[c], rfl⟩

theorem not_infix_append_parts (pat P T S : List Char)
    (hP : ¬ pat <:+: P) (hT : ¬ pat <:+: T) (hS : ¬ pat <:+: S)
    (hPlast : P.getLast? = some '\n') (hShead : S.head? = some '\n')
    (hnl : '\n' ∉ pat) : ¬ pat <:+: P ++ (T ++ S) := by
  intro h
  rcases infix_append_cases pat P (T ++ S) h with h1 | h2 | ⟨a, b, hane, hbne, haP, hbTS, hab⟩
  · exact hP h1
  · rcases infix_append_cases pat T S h2 with h3 | h4 | ⟨a, b, hane, hbne, haT, hbS, hab⟩
    · exact hT h3
    · exact hS h4
    · obtain ⟨t, ht⟩ := hbS
      have hheq : S.head? = b.head? := by
        rw [← ht]
        cases b with
        | nil => exact absurd rfl hbne
        | cons c2 bs => rfl
      have hbh : b.head? = some '\n' := hheq.symm.trans hShead
      have hmem : '\n' ∈ b := by
        cases b with
        | nil => exact absurd rfl hbne
        | cons c2 bs =>
          injection hbh with h5
          rw [h5]
          exact List.mem_cons_self _ _
      exact hnl (hab ▸ List.mem_append_right a hmem)
  · obtain ⟨u, hu⟩ := haP
    have hleq : P.getLast? = a.getLast? := by
      rw [← hu]
      exact List.getLast?_append_of_ne_nil u hane
    have hla : a.getLast? = some '\n' := hleq.symm.trans hPlast
    have hmem : '\n' ∈ a := List.mem_of_mem_getLast? hla
    exact hnl (hab ▸ List.mem_append_left b hmem)

/-- Counterexample to C3 as stated: composing the prompt with the
placeholder token itself as the research text leaves the placeholder
present in the result, and composing with the one-letter text `"a"`
yields at least two occurrences of it (it already occurs in the
template), so neither "no longer contains the placeholder" nor "contains
T verbatim exactly once" holds for every T. -/
theorem c3_counterexample :
    containsB PLACEHOLDER.data (composePrompt PLACEHOLDER).data = true ∧
    2 ≤ countOccs "a".data (composePrompt "a").data := by
  exact ⟨by decide, by decide⟩

/-- C3 (amended): the placeholder occurs exactly once in the master
prompt, and for every research text T that contains no `'$'` character
(JS `replace` expands `$`-patterns in the replacement) and does not
itself contain the placeholder token, the composed prompt contains T
verbatim (at least once — "exactly once" can fail because T may already
occur in the template) and no longer contains the placeholder token. -/
theorem c3_compose_prompt_contains_text_placeholder_gone (T : String)
    (hd : '$' ∉ T.data) (hni : ¬ PLACEHOLDER.data <:+: T.data) :
    T.data <:+: (composePrompt T).data ∧
    ¬ PLACEHOLDER.data <:+: (composePrompt T).data ∧
    countOccs PLACEHOLDER.data MASTER_PROMPT.data = 1 := by
  have he : (composePrompt T).data = promptPre ++ (T.data ++ promptSuf) :=
    composePrompt_eq T.data hd
  refine ⟨?_, ?_, by decide⟩
  · rw [he]
    exact ⟨promptPre, promptSuf, by simp [List.append_assoc]⟩
  · rw [he]
    exact not_infix_append_parts PLACEHOLDER.data promptPre T.data promptSuf
      (fun h => absurd ((containsB_iff _ _).mpr h) (by decide))
      hni
      (fun h => absurd ((containsB_iff _ _).mpr h) (by decide))
      (by decide) (by decide) (by decide)

/-- Witness for C3's amended theorem at a concrete research text. -/
theorem c3_compose_prompt_contains_text_placeholder_gone_witness :
    "my research text".data <:+: (composePrompt "my research text").data ∧
    ¬ PLACEHOLDER.data <:+: (composePrompt "my research text").data ∧
    countOccs PLACEHOLDER.data MASTER_PROMPT.data = 1 :=
  c3_compose_prompt_contains_text_placeholder_gone "my research text" (by decide)
    (fun h => absurd ((containsB_iff _ _).mpr h) (by decide))
